import Mathlib

/-!
Verification development for the code-generation back end of the LE language
(repository llvm-rs).  The definitions below are a shallow embedding of
`src/code_generator/generator.rs`.  The SSA builder library
(`src/code_generator/builder`) is not part of the sources; operations taken
from it are modelled from the specification and carry a doc comment saying so.

State is passed explicitly: every generator operation takes a `GenState` and
returns `Res α × GenState`, so that the state reached at the moment an error
is raised stays observable (mirroring `&mut self` in the Rust source).
Recursion over the AST is driven by an explicit fuel argument; running out of
fuel is the distinct outcome `Res.nofuel`, and Rust `panic!`/`unwrap()` on
`None`/`Err` is the distinct outcome `Res.panicked`.
-/

set_option maxHeartbeats 1600000
set_option linter.unusedVariables false

namespace LlvmRs

/-! ### Lexer-level data (src/lexer, referenced by the generator) -/

inductive Operator where
  | plus | sub | mul | div | mod | assign
  | equal | notEqual | greaterThan | lessThan | greaterOrEqualThan | lessOrEqualThan
  | dot | and | or | xor | not | rev
  deriving DecidableEq, Repr

/-- Number literals; the float payload is kept as an opaque bit pattern,
since no claim depends on floating-point arithmetic. -/
inductive Number where
  | integer (v : Nat)
  | float (bits : Nat)
  deriving DecidableEq, Repr

inductive CompareBinaryOperator where
  | equal | notEqual | greaterThan | lessThan | greaterOrEqualThan | lessOrEqualThan
  deriving DecidableEq, Repr

inductive LogicBinaryOperator where
  | logicAnd | logicOr | logicXor
  deriving DecidableEq, Repr

/-! ### AST (src/ast/nodes.rs, as consumed by generator.rs) -/

inductive TypeDeclarator where
  | typeIdentifier (name : String)
  | pointer (t : TypeDeclarator)
  | array (t : TypeDeclarator) (n : Nat)
  | vector (t : TypeDeclarator) (n : Nat)
  deriving DecidableEq, Repr

mutual

inductive Expr where
  | unaryOperator (op : Operator) (expr : Expr)
  | binaryOperator (op : Operator) (left right : Expr)
  | numberLiteral (number : Number)
  | callExpression (function_name : String) (params : List Expr)
  | identifier (name : String)
  | arrayInitializer (elements : List Expr)
  | structureInitializer (structure_name : String)
      (member_initial_values : List (String × Expr))

inductive Variable where
  | mk (name : String) (type_declarator : Option TypeDeclarator) (value : Expr)

inductive Statement where
  | expressions (e : Expr)
  | ret (e : Expr)
  | ifStmt (cond : Expr) (then_block : CodeBlock) (else_block : Option CodeBlock)
  | forLoop (init_statement : Statement) (condition : Statement)
      (iterate : Statement) (code_block : CodeBlock)
  | variableDefinition (v : Variable)
  | voidStmt
  | whileLoop (condition : Option Expr) (code_block : CodeBlock)

inductive CodeBlock where
  | mk (statements : List Statement)

end

def Variable.name : Variable → String
  | .mk n _ _ => n

def Variable.type_declarator : Variable → Option TypeDeclarator
  | .mk _ t _ => t

def Variable.value : Variable → Expr
  | .mk _ _ v => v

def CodeBlock.statements : CodeBlock → List Statement
  | .mk s => s

structure FunctionPrototype where
  name : String
  param_types : List TypeDeclarator
  return_type : Option TypeDeclarator

structure FunctionDefinition where
  prototype : FunctionPrototype
  param_names : List String
  code_block : CodeBlock

structure Structure where
  name : String
  members : List (String × TypeDeclarator)

structure Ast where
  globals_variables : List Variable
  globals_structures : List Structure
  extern_functions : List FunctionPrototype
  function_definitions : List FunctionDefinition

/-! ### SSA-layer types and values (LEBasicTypeEnum / LEBasicValueEnum) -/

inductive LEType where
  | integer (width : Nat) (signed : Bool)
  | float (width : Nat)
  | bool
  | pointer (pointee : LEType)
  | array (element : LEType) (n : Nat)
  | vector (element : LEType) (n : Nat)
  | struct (name : String)
  deriving DecidableEq, Repr

/-- Record equality is nominal; a record handle is interned by name and its
layout (the ordered field list) lives in the Type Registry, keyed by that
name (spec section 4.1 and section 9). -/
def StructFields : Type := List (String × LEType)

/-- SSA values: constants carry their payload, instruction results are
`reg` ids tagged with their type. -/
inductive LEValue where
  | intConst (width : Nat) (signed : Bool) (v : Nat)
  | floatConst (width : Nat) (bits : Nat)
  | boolConst (b : Bool)
  | arrayConst (element : LEType) (vals : List LEValue)
  | structConst (ty : LEType) (vals : List LEValue)
  | vectorConst (element : LEType) (vals : List LEValue)
  | reg (id : Nat) (ty : LEType)

def LEValue.typeOf : LEValue → LEType
  | .intConst w s _ => .integer w s
  | .floatConst w _ => .float w
  | .boolConst _ => .bool
  | .arrayConst e vs => .array e vs.length
  | .structConst t _ => t
  | .vectorConst e vs => .vector e vs.length
  | .reg _ t => t

/-- The `LEBasicValueEnum::Bool` variant test: a boolean constant or an
instruction result of boolean type. -/
def LEValue.is_bool : LEValue → Bool
  | .boolConst _ => true
  | .reg _ .bool => true
  | _ => false

/-- A value that folds to a constant (not an instruction result). -/
def LEValue.is_const : LEValue → Bool
  | .reg _ _ => false
  | _ => true

def LEType.is_numeric : LEType → Bool
  | .integer _ _ => true
  | .float _ => true
  | _ => false

/-- Display name used in error payloads (the builder's to_string is not under
src/; the exact text is immaterial to every claim below). -/
def type_name : LEType → String
  | .integer w s => (if s then "i" else "u") ++ toString w
  | .float w => "f" ++ toString w
  | .bool => "bool"
  | .pointer t => type_name t ++ "*"
  | .array t n => "[" ++ type_name t ++ "; " ++ toString n ++ "]"
  | .vector t n => "<" ++ type_name t ++ "; " ++ toString n ++ ">"
  | .struct n => n

/-- LEPointerValue: a typed address in the SSA world. -/
structure LEPointerValue where
  pointee : LEType
  addr : Nat
  deriving DecidableEq, Repr

/-- ExpressionValue: the l-value / r-value / unit tagged result of
expression lowering (src/code_generator/builder/expression.rs interface). -/
inductive ExpressionValue where
  | left (p : LEPointerValue)
  | right (v : LEValue)
  | unit

/-- A function symbol: parameter types, optional return type, SSA handle. -/
structure FunctionSym where
  param_types : List LEType
  return_type : Option LEType
  fn_id : Nat
  deriving DecidableEq, Repr

/-! ### Errors and outcomes -/

inductive CompileError where
  | typeMismatched (expect found : String)
  | typeNotFound (name : String)
  | unknownField (name : String)
  | notFound (name : String)
  | redefinition (name : String)
  | argumentMismatch
  | noSuitableBinaryOperator (op : Operator) (left right : String)
  | notAllowZeroLengthArray
  | valueExpected
  | nonConstantGlobal
  deriving DecidableEq, Repr

inductive Res (α : Type) where
  | ok (a : α)
  | err (e : CompileError)
  | panicked
  | nofuel
  deriving DecidableEq, Repr

/-! ### Instructions, basic blocks, generator state -/

inductive Instr where
  | alloca (res : Nat) (ty : LEType)
  | store (ptr : Nat) (v : LEValue)
  | load (res : Nat) (ptr : Nat) (ty : LEType)
  | br (target : Nat)
  | condBr (cond : LEValue) (then_block else_block : Nat)
  | retInstr (v : Option LEValue)
  | binOp (res : Nat) (op : Operator) (l r : LEValue)
  | cmpOp (res : Nat) (op : CompareBinaryOperator) (l r : LEValue)
  | logicOp (res : Nat) (op : LogicBinaryOperator) (l r : LEValue)
  | negOp (res : Nat) (v : LEValue)
  | callOp (res : Option Nat) (fname : String) (args : List LEValue)
  | gep (res : Nat) (ptr : Nat) (idx : Nat)

def Instr.is_cond_br : Instr → Bool
  | .condBr _ _ _ => true
  | _ => false

/-- Events observable at translation-unit level, used to state in which order
the driver's passes touch the module. -/
inductive Event where
  | emitGlobal (name : String)
  | declStruct (name : String)
  | declFunction (name : String)
  deriving DecidableEq, Repr

def Event.is_emit_global : Event → Bool
  | .emitGlobal _ => true
  | _ => false

def Event.is_decl_struct : Event → Bool
  | .declStruct _ => true
  | _ => false

def Event.is_decl_function : Event → Bool
  | .declFunction _ => true
  | _ => false

/-- The whole mutable state of the code generator: the emitted blocks (in
layout order, each with its instruction list), the builder cursor (a block
id; intra-block insertion position is abstracted to appending at the end),
fresh-id counters, the scope stack (head = innermost frame, last = global
frame), the interned global functions and record types, and the per-function
context (entry block, return slot, return block). -/
structure GenState where
  blocks : List (Nat × List Instr)
  cursor : Option Nat
  next_block : Nat
  next_reg : Nat
  block_tables : List (List (String × LEPointerValue))
  global_functions : List (String × FunctionSym)
  global_types : List (String × StructFields)
  current_entry : Option Nat
  return_variable : Option LEPointerValue
  return_block : Option Nat
  events : List Event

/-! ### Pure state operations (llvm_context / llvm_builder / compiler_context) -/

def append_instr (b : Nat) (i : Instr) :
    List (Nat × List Instr) → List (Nat × List Instr)
  | [] => []
  | p :: rest =>
      if p.1 = b then (p.1, p.2 ++ [i]) :: rest else p :: append_instr b i rest

/-- Append an instruction at the current cursor block. -/
def GenState.emit (g : GenState) (i : Instr) : GenState :=
  match g.cursor with
  | none => g
  | some b => { g with blocks := append_instr b i g.blocks }

def GenState.position_at_end (g : GenState) (b : Nat) : GenState :=
  { g with cursor := some b }

def insert_block_entry (after fresh : Nat) :
    List (Nat × List Instr) → List (Nat × List Instr)
  | [] => [(fresh, [])]
  | p :: rest =>
      if p.1 = after then p :: (fresh, []) :: rest
      else p :: insert_block_entry after fresh rest

/-- inkwell's insert_basic_block_after: a fresh empty block placed right
after the given block in layout order. -/
def GenState.insert_basic_block_after (g : GenState) (after : Nat) :
    Nat × GenState :=
  (g.next_block,
   { g with
      next_block := g.next_block + 1,
      blocks := insert_block_entry after g.next_block g.blocks })

/-- llvm_context.append_basic_block: fresh empty block at the end. -/
def GenState.append_basic_block (g : GenState) : Nat × GenState :=
  (g.next_block,
   { g with
      next_block := g.next_block + 1,
      blocks := g.blocks ++ [(g.next_block, [])] })

def GenState.fresh_reg (g : GenState) : Nat × GenState :=
  (g.next_reg, { g with next_reg := g.next_reg + 1 })

def push_block_table (g : GenState) : GenState :=
  { g with block_tables := [] :: g.block_tables }

def pop_block_table (g : GenState) : GenState :=
  { g with block_tables := g.block_tables.tail }

/-- Name lookup walks the scope stack top-to-bottom, first match wins. -/
def lookup_var : List (List (String × LEPointerValue)) → String →
    Option LEPointerValue
  | [], _ => none
  | t :: rest, n =>
      match t.find? (fun p => p.1 == n) with
      | some p => some p.2
      | none => lookup_var rest n

/-- Insertion into the top scope frame; Redefinition if the name already
exists in that frame. -/
def GenState.insert_local (g : GenState) (n : String) (p : LEPointerValue) :
    Res Unit × GenState :=
  match g.block_tables with
  | [] => (.panicked, g)
  | t :: rest =>
      if (t.find? (fun q => q.1 == n)).isSome then (.err (.redefinition n), g)
      else (.ok (), { g with block_tables := (t ++ [(n, p)]) :: rest })

/-- Insertion into the bottom (global) scope frame. -/
def insert_var_bottom (n : String) (p : LEPointerValue) :
    List (List (String × LEPointerValue)) →
    Res (List (List (String × LEPointerValue)))
  | [] => .panicked
  | [t] =>
      if (t.find? (fun q => q.1 == n)).isSome then .err (.redefinition n)
      else .ok [t ++ [(n, p)]]
  | t :: u :: rest =>
      match insert_var_bottom n p (u :: rest) with
      | .ok rest' => .ok (t :: rest')
      | .err e => .err e
      | .panicked => .panicked
      | .nofuel => .nofuel

/-! ### Result plumbing: the analogue of Rust's `?` -/

/-- Sequencing with early return, keeping the state at which an error was
raised (Rust `?` on a method of `&mut self`). -/
def andThen {α β : Type} (r : Res α × GenState)
    (k : α → GenState → Res β × GenState) : Res β × GenState :=
  match r with
  | (.ok a, g) => k a g
  | (.err e, g) => (.err e, g)
  | (.panicked, g) => (.panicked, g)
  | (.nofuel, g) => (.nofuel, g)

/-! ### Type registry (modelled: src/code_generator/builder is not under src/) -/

/-- Modelled from the spec: the pre-interned primitive types of section 4.1
(int, i8/i16/i32/i64, float, double, bool). -/
def primitive_type : String → Option LEType
  | "int" => some (.integer 32 true)
  | "i8" => some (.integer 8 true)
  | "i16" => some (.integer 16 true)
  | "i32" => some (.integer 32 true)
  | "i64" => some (.integer 64 true)
  | "float" => some (.float 32)
  | "double" => some (.float 64)
  | "bool" => some .bool
  | _ => none

/-- Modelled from the spec: the Type Registry's resolve (get_generic_type in
the builder, not under src/): recursive on composite declarators, named types
are primitives or interned records, unknown names fail TypeNotFound. -/
def get_generic_type (g : GenState) : TypeDeclarator → Res LEType
  | .typeIdentifier n =>
      match primitive_type n with
      | some t => .ok t
      | none =>
          if (g.global_types.find? (fun p => p.1 == n)).isSome then
            .ok (.struct n)
          else .err (.typeNotFound n)
  | .pointer t =>
      match get_generic_type g t with
      | .ok t' => .ok (.pointer t')
      | .err e => .err e
      | .panicked => .panicked
      | .nofuel => .nofuel
  | .array t n =>
      match get_generic_type g t with
      | .ok t' => .ok (.array t' n)
      | .err e => .err e
      | .panicked => .panicked
      | .nofuel => .nofuel
  | .vector t n =>
      match get_generic_type g t with
      | .ok t' => .ok (.vector t' n)
      | .err e => .err e
      | .panicked => .panicked
      | .nofuel => .nofuel

/-- The interned layout of a record type (LEStructType's field list). -/
def get_struct_fields (g : GenState) (n : String) : Option StructFields :=
  (g.global_types.find? (fun p => p.1 == n)).map (fun p => p.2)

/-- Modelled from the spec: LEStructType::get_member_offset, the zero-based
declaration-order index of a field name, none when the name is not a field. -/
def get_member_offset (fields : StructFields) (name : String) : Option Nat :=
  match fields with
  | [] => none
  | f :: rest =>
      if f.1 == name then some 0
      else (get_member_offset rest name).map (fun k => k + 1)

/-- The declared type of a named field. -/
def get_member_type (fields : StructFields) (name : String) : Option LEType :=
  (fields.find? (fun f => f.1 == name)).map (fun f => f.2)

/-- Modelled from the spec: insert_global_type interns a record layout keyed
by name, failing with Redefinition on a name collision; declaring the record
type is recorded as an event. -/
def insert_global_type (g : GenState) (name : String) (fields : StructFields) :
    Res Unit × GenState :=
  if (g.global_types.find? (fun p => p.1 == name)).isSome then
    (.err (.redefinition name), g)
  else
    (.ok (),
     { g with
        global_types := g.global_types ++ [(name, fields)],
        events := g.events ++ [.declStruct name] })

/-- Modelled from the spec: insert_global_function registers a function
symbol, failing with Redefinition on a collision; recorded as an event. -/
def insert_global_function (g : GenState) (name : String) (f : FunctionSym) :
    Res Unit × GenState :=
  if (g.global_functions.find? (fun p => p.1 == name)).isSome then
    (.err (.redefinition name), g)
  else
    (.ok (),
     { g with
        global_functions := g.global_functions ++ [(name, f)],
        events := g.events ++ [.declFunction name] })

/-- Modelled from the spec: compiler_context.get_function, name lookup among
registered functions, NotFound otherwise. -/
def get_function (g : GenState) (n : String) : Res FunctionSym :=
  match g.global_functions.find? (fun p => p.1 == n) with
  | some p => .ok p.2
  | none => .err (.notFound n)

/-- Modelled from the spec: get_variable walks the scope stack top-to-bottom
and yields the variable's storage pointer, NotFound otherwise. -/
def get_variable (g : GenState) (n : String) : Res LEPointerValue :=
  match lookup_var g.block_tables n with
  | some p => .ok p
  | none => .err (.notFound n)

/-! ### Value algebra (modelled: builder read / assign / operator builders) -/

/-- Modelled from the spec (section 4.3): read turns an ExpressionResult into
a bare r-value: an RValue is returned as is, an LValue loads from its
pointer, Unit fails ValueExpected. -/
def read_expression_value (g : GenState) :
    ExpressionValue → Res LEValue × GenState
  | .right v => (.ok v, g)
  | .left p =>
      let (r, g) := g.fresh_reg
      (.ok (.reg r p.pointee), g.emit (.load r p.addr p.pointee))
  | .unit => (.err .valueExpected, g)

/-- Modelled from the spec: build_store reads the value and emits a store
into the pointer. -/
def build_store (g : GenState) (p : LEPointerValue) (value : ExpressionValue) :
    Res Unit × GenState :=
  andThen (read_expression_value g value) fun v g =>
    (.ok (), g.emit (.store p.addr v))

/-- Modelled from the spec: build_load emits a load typed with the pointee
type and yields the fresh register. -/
def build_load (g : GenState) (p : LEPointerValue) : Res LEValue × GenState :=
  let (r, g) := g.fresh_reg
  (.ok (.reg r p.pointee), g.emit (.load r p.addr p.pointee))

/-- Modelled from the spec (section 4.3): build_assign requires the left to
be an l-value, reads the right, requires identical types (TypeMismatched
otherwise) and emits a store.  Its value is the assigned pointer: the caller
in generator.rs wraps the result in ExpressionValue::Left, which fixes the
builder's return type to a pointer value. -/
def build_assign (g : GenState) (left right : ExpressionValue) :
    Res LEPointerValue × GenState :=
  match left with
  | .left p =>
      andThen (read_expression_value g right) fun v g =>
        if v.typeOf = p.pointee then
          (.ok p, g.emit (.store p.addr v))
        else
          (.err (.typeMismatched (type_name p.pointee) (type_name v.typeOf)), g)
  | _ => (.err (.typeMismatched "LValue" "RValue"), g)

/-- Modelled from the spec (section 4.3): the arithmetic builders
(build_add/sub/mul/div/mod) read both operands, require identical numeric
types and emit the type-appropriate opcode. -/
def build_arith (g : GenState) (op : Operator) (left right : ExpressionValue) :
    Res LEValue × GenState :=
  andThen (read_expression_value g left) fun l g =>
  andThen (read_expression_value g right) fun r g =>
    if l.typeOf = r.typeOf ∧ l.typeOf.is_numeric then
      let (id, g) := g.fresh_reg
      (.ok (.reg id l.typeOf), g.emit (.binOp id op l r))
    else
      (.err (.typeMismatched (type_name l.typeOf) (type_name r.typeOf)), g)

/-- Modelled from the spec (section 4.3): build_compare reads both operands,
requires identical types and yields a boolean register. -/
def build_compare (g : GenState) (left right : ExpressionValue)
    (op : CompareBinaryOperator) : Res LEValue × GenState :=
  andThen (read_expression_value g left) fun l g =>
  andThen (read_expression_value g right) fun r g =>
    if l.typeOf = r.typeOf then
      let (id, g) := g.fresh_reg
      (.ok (.reg id .bool), g.emit (.cmpOp id op l r))
    else
      (.err (.typeMismatched (type_name l.typeOf) (type_name r.typeOf)), g)

/-- Modelled from the spec (sections 4.3 and 9): build_binary_logic operates
on booleans bitwise; both operands must be boolean. -/
def build_binary_logic (g : GenState) (left right : ExpressionValue)
    (op : LogicBinaryOperator) : Res LEValue × GenState :=
  andThen (read_expression_value g left) fun l g =>
  andThen (read_expression_value g right) fun r g =>
    if l.typeOf = .bool ∧ r.typeOf = .bool then
      let (id, g) := g.fresh_reg
      (.ok (.reg id .bool), g.emit (.logicOp id op l r))
    else
      (.err (.typeMismatched (type_name l.typeOf) (type_name r.typeOf)), g)

/-- Modelled from the spec (section 4.3): build_neg reads the operand,
requires a numeric type, emits neg. -/
def build_neg (g : GenState) (value : ExpressionValue) :
    Res LEValue × GenState :=
  andThen (read_expression_value g value) fun v g =>
    if v.typeOf.is_numeric then
      let (id, g) := g.fresh_reg
      (.ok (.reg id v.typeOf), g.emit (.negOp id v))
    else
      (.err (.typeMismatched "numeric" (type_name v.typeOf)), g)

/-- Modelled from the spec (section 4.3): build_dot requires the left to be
an l-value of record type and emits a field-address computation with the
declaration-order index, yielding an l-value of the field type; a missing
field fails UnknownField. -/
def build_dot (g : GenState) (left : ExpressionValue) (name : String) :
    Res LEPointerValue × GenState :=
  match left with
  | .left p =>
      match p.pointee with
      | .struct sname =>
          match get_struct_fields g sname with
          | some fields =>
              match get_member_offset fields name, get_member_type fields name with
              | some idx, some fty =>
                  let (r, g) := g.fresh_reg
                  (.ok ⟨fty, r⟩, g.emit (.gep r p.addr idx))
              | _, _ => (.err (.unknownField name), g)
          | none => (.panicked, g)
      | t => (.err (.typeMismatched "Struct" (type_name t)), g)
  | _ => (.err (.typeMismatched "Struct LValue" "value"), g)

/-- Read every argument of a call in order (modelled builder helper). -/
def read_arguments (g : GenState) :
    List ExpressionValue → Res (List LEValue) × GenState
  | [] => (.ok [], g)
  | ev :: rest =>
      andThen (read_expression_value g ev) fun v g =>
      andThen (read_arguments g rest) fun vs g =>
        (.ok (v :: vs), g)

/-- Modelled from the spec (section 4.4 Call): each argument is read, arity
must match, each argument type must equal the declared parameter type
(ArgumentMismatch otherwise); a call is emitted; a value-returning callee
yields an RValue, a void callee yields Unit. -/
def build_call (g : GenState) (f : FunctionSym) (fname : String)
    (params : List ExpressionValue) : Res ExpressionValue × GenState :=
  andThen (read_arguments g params) fun args g =>
    if args.map LEValue.typeOf = f.param_types then
      match f.return_type with
      | some rt =>
          let (r, g) := g.fresh_reg
          (.ok (.right (.reg r rt)), g.emit (.callOp (some r) fname args))
      | none =>
          (.ok .unit, g.emit (.callOp none fname args))
    else (.err .argumentMismatch, g)

/-! ### Local and global variable creation (modelled builder operations) -/

/-- Modelled from the spec (section 4.4): a numeric literal may be re-typed
during assignment or initialisation by re-emitting it in the destination
type when the destination is numeric of the same kind. -/
def retype_literal (v : LEValue) (t : LEType) : Option LEValue :=
  match v, t with
  | .intConst _ _ n, .integer w s => some (.intConst w s n)
  | .floatConst _ b, .float w => some (.floatConst w b)
  | _, _ => none

/-- Modelled from the spec (section 4.5 LocalVar): the builder's
create_local_variable reads the initial value, allocates a stack slot at the
cursor, stores the value and inserts the symbol into the top scope frame. -/
def builder_create_local_variable (g : GenState) (name : String)
    (initial : ExpressionValue) : Res LEPointerValue × GenState :=
  andThen (read_expression_value g initial) fun v g =>
    let (r, g) := g.fresh_reg
    let g := g.emit (.alloca r v.typeOf)
    let g := g.emit (.store r v)
    let p : LEPointerValue := ⟨v.typeOf, r⟩
    andThen (g.insert_local name p) fun _ g => (.ok p, g)

/-- Modelled from the spec (section 4.5 LocalVar): with an explicit type the
initializer must type-match the declared type, up to literal re-typing;
otherwise TypeMismatched. -/
def builder_create_local_variable_with_exact_type (g : GenState)
    (name : String) (initial : ExpressionValue) (decl : TypeDeclarator) :
    Res LEPointerValue × GenState :=
  match get_generic_type g decl with
  | .ok ty =>
      andThen (read_expression_value g initial) fun v g =>
        let fit : Option LEValue :=
          if v.typeOf = ty then some v else retype_literal v ty
        match fit with
        | some v' =>
            let (r, g) := g.fresh_reg
            let g := g.emit (.alloca r ty)
            let g := g.emit (.store r v')
            let p : LEPointerValue := ⟨ty, r⟩
            andThen (g.insert_local name p) fun _ g => (.ok p, g)
        | none => (.err (.typeMismatched (type_name ty) (type_name v.typeOf)), g)
  | .err e => (.err e, g)
  | .panicked => (.panicked, g)
  | .nofuel => (.nofuel, g)

/-- Modelled from the spec (section 4.7): create_global_variable accepts only
initializers that fold to constants (literals and constant aggregates) and
fails NonConstantGlobal otherwise; the symbol goes into the bottom (global)
frame and the emission is recorded as an event. -/
def create_global_variable (g : GenState) (name : String)
    (value : ExpressionValue) : Res LEPointerValue × GenState :=
  match value with
  | .right v =>
      if v.is_const then
        let (r, g) := g.fresh_reg
        let p : LEPointerValue := ⟨v.typeOf, r⟩
        match insert_var_bottom name p g.block_tables with
        | .ok tables =>
            (.ok p, { g with
                        block_tables := tables,
                        events := g.events ++ [.emitGlobal name] })
        | .err e => (.err e, g)
        | .panicked => (.panicked, g)
        | .nofuel => (.nofuel, g)
      else (.err .nonConstantGlobal, g)
  | _ => (.err .nonConstantGlobal, g)

/-- Modelled from the spec (section 4.7): as create_global_variable, with the
declared type required to match the initializer up to literal re-typing. -/
def create_global_variable_with_exact_type (g : GenState) (name : String)
    (value : ExpressionValue) (ty : LEType) : Res LEPointerValue × GenState :=
  match value with
  | .right v =>
      if v.is_const then
        match (if v.typeOf = ty then some v else retype_literal v ty) with
        | some _ =>
            let (r, g) := g.fresh_reg
            let p : LEPointerValue := ⟨ty, r⟩
            match insert_var_bottom name p g.block_tables with
            | .ok tables =>
                (.ok p, { g with
                            block_tables := tables,
                            events := g.events ++ [.emitGlobal name] })
            | .err e => (.err e, g)
            | .panicked => (.panicked, g)
            | .nofuel => (.nofuel, g)
        | none =>
            (.err (.typeMismatched (type_name ty) (type_name v.typeOf)), g)
      else (.err .nonConstantGlobal, g)
  | _ => (.err .nonConstantGlobal, g)

/-- Modelled from the spec (section 4.6): build_alloca_without_initialize
allocates a slot of the given type at the cursor (used for the return slot in
the entry block). -/
def build_alloca_without_initialize (g : GenState) (ty : LEType) :
    LEPointerValue × GenState :=
  let (r, g) := g.fresh_reg
  (⟨ty, r⟩, g.emit (.alloca r ty))

/-- compiler_context.set_current_context: the per-function context.  The
current function handle is represented by its entry block (its first basic
block, which is what the generator reads back from it). -/
def set_current_context (g : GenState) (entry : Nat)
    (return_variable : Option LEPointerValue) (return_block : Nat) : GenState :=
  { g with
      current_entry := some entry,
      return_variable := return_variable,
      return_block := some return_block }

/-! ### Non-recursive generator functions (generator.rs) -/

/-- generator.rs lines 224-230: identifiers; true/false are boolean
r-values, otherwise the variable's storage pointer is an l-value. -/
def build_identifier_expression (g : GenState) (name : String) :
    Res ExpressionValue × GenState :=
  if name = "true" then (.ok (.right (.boolConst true)), g)
  else if name = "false" then (.ok (.right (.boolConst false)), g)
  else
    match get_variable g name with
    | .ok p => (.ok (.left p), g)
    | .err e => (.err e, g)
    | .panicked => (.panicked, g)
    | .nofuel => (.nofuel, g)

/-- generator.rs lines 232-245: integer literals default to i32 (signed),
float literals to double. -/
def build_number_literal_expression (g : GenState) (number : Number) :
    Res ExpressionValue × GenState :=
  match number with
  | .integer i => (.ok (.right (.intConst 32 true i)), g)
  | .float b => (.ok (.right (.floatConst 64 b)), g)

/-- generator.rs lines 295-303: a return stores into the return slot (when
present; the store's own result is discarded by the source, which drops the
Result at line 299) and branches to the return block (unwrapped at 297). -/
def build_return (g : GenState) (value : ExpressionValue) :
    Res Unit × GenState :=
  match g.return_block with
  | none => (.panicked, g)
  | some return_block =>
      let g :=
        match g.return_variable with
        | some return_variable => (build_store g return_variable value).2
        | none => g
      (.ok (), g.emit (.br return_block))

/-- The common prelude of if/while/for lowering (generator.rs lines 309-311,
338-340, 363-365): three fresh blocks inserted in order after the current
insertion block. -/
def create_three_blocks (g : GenState) (cur : Nat) :
    (Nat × Nat × Nat) × GenState :=
  let (b1, g) := g.insert_basic_block_after cur
  let (b2, g) := g.insert_basic_block_after b1
  let (b3, g) := g.insert_basic_block_after b2
  ((b1, b2, b3), g)

/-- generator.rs line 48: sort_unstable_by on the declaration-order index,
modelled as an insertion sort.  An unstable sort leaves the relative order of
equal keys unspecified; for well-formed initializers the keys are pairwise
distinct, so every correct sort produces the same list. -/
def insert_by_offset (p : Nat × ExpressionValue) :
    List (Nat × ExpressionValue) → List (Nat × ExpressionValue)
  | [] => [p]
  | q :: rest => if p.1 ≤ q.1 then p :: q :: rest else q :: insert_by_offset p rest

def sort_by_offset : List (Nat × ExpressionValue) → List (Nat × ExpressionValue)
  | [] => []
  | p :: rest => insert_by_offset p (sort_by_offset rest)

/-- generator.rs line 49: each sorted member value is read with the read
Result unwrapped — a read failure is a panic, not an error return. -/
def read_values_unwrap (g : GenState) :
    List (Nat × ExpressionValue) → Res (List LEValue) × GenState
  | [] => (.ok [], g)
  | p :: rest =>
      match read_expression_value g p.2 with
      | (.ok v, g) =>
          andThen (read_values_unwrap g rest) fun vs g => (.ok (v :: vs), g)
      | (.err _, g) => (.panicked, g)
      | (.panicked, g) => (.panicked, g)
      | (.nofuel, g) => (.nofuel, g)

/-- generator.rs lines 87-91: the first array element whose type differs from
the first element's type, if any. -/
def first_type_mismatch (t : LEType) : List LEValue → Option LEType
  | [] => none
  | v :: rest => if v.typeOf ≠ t then some v.typeOf else first_type_mismatch t rest

/-! ### The recursive lowering engine (generator.rs).  Recursion over the AST
is bounded by an explicit fuel argument which every function decrements on
entry; exhaustion is the separate outcome `.nofuel`. -/

mutual

/-- generator.rs lines 21-33: build_expression dispatch. -/
def build_expression : Nat → GenState → Expr → Res ExpressionValue × GenState
  | 0, g, _ => (.nofuel, g)
  | f + 1, g, e =>
      match e with
      | .unaryOperator op x => build_unary_operator_expression f g op x
      | .binaryOperator op l r => build_binary_operator_expression f g op l r
      | .numberLiteral n => build_number_literal_expression g n
      | .callExpression n ps => build_call_expression f g n ps
      | .identifier n => build_identifier_expression g n
      | .arrayInitializer es => build_array_initializer f g es
      | .structureInitializer n vs => build_structure_initializer f g n vs

/-- generator.rs lines 36-55: record initializer lowering.  The resolved type
must be a record; the number of provided members must equal the number of
declared fields (TypeMismatched otherwise); each member value is lowered and
paired with its declaration index — get_member_offset(..).unwrap() panics on
an unknown name (line 46); pairs are sorted by index, read, and emitted as a
constant named-record aggregate. -/
def build_structure_initializer :
    Nat → GenState → String → List (String × Expr) → Res ExpressionValue × GenState
  | 0, g, _, _ => (.nofuel, g)
  | f + 1, g, structure_name, member_initial_values =>
      match get_generic_type g (.typeIdentifier structure_name) with
      | .ok (.struct n) =>
          match get_struct_fields g n with
          | some fields =>
              if fields.length ≠ member_initial_values.length then
                (.err (.typeMismatched (type_name (.struct n)) structure_name), g)
              else
                andThen (build_struct_init_values f g fields member_initial_values)
                  fun value_array g =>
                andThen (read_values_unwrap g (sort_by_offset value_array))
                  fun vals g =>
                  (.ok (.right (.structConst (.struct n) vals)), g)
          | none => (.panicked, g)
      | .ok t => (.err (.typeMismatched "Struct" (type_name t)), g)
      | .err e => (.err e, g)
      | .panicked => (.panicked, g)
      | .nofuel => (.nofuel, g)

/-- generator.rs lines 43-47: the member loop — lower the value, then unwrap
the field's declaration index (panic when the name is not a field). -/
def build_struct_init_values :
    Nat → GenState → StructFields → List (String × Expr) →
    Res (List (Nat × ExpressionValue)) × GenState
  | 0, g, _, _ => (.nofuel, g)
  | f + 1, g, fields, member_initial_values =>
      match member_initial_values with
      | [] => (.ok [], g)
      | (name, initial_value) :: rest =>
          andThen (build_expression f g initial_value) fun value g =>
            match get_member_offset fields name with
            | some off =>
                andThen (build_struct_init_values f g fields rest) fun tail g =>
                  (.ok ((off, value) :: tail), g)
            | none => (.panicked, g)

/-- generator.rs lines 57-72: unary plus is the identity, unary minus emits
neg, everything else is unimplemented (a panic). -/
def build_unary_operator_expression :
    Nat → GenState → Operator → Expr → Res ExpressionValue × GenState
  | 0, g, _, _ => (.nofuel, g)
  | f + 1, g, op, e =>
      andThen (build_expression f g e) fun value g =>
        match op with
        | .plus => (.ok value, g)
        | .sub => andThen (build_neg g value) fun v g => (.ok (.right v), g)
        | _ => (.panicked, g)

/-- generator.rs lines 75-124: array initializer lowering.  Empty arrays are
rejected; every element is lowered and read; all element types must equal the
first element's type; the source's per-variant const_array calls (lines
93-122, with try_into().unwrap() made infallible by the preceding type check)
are modelled uniformly by a constant array aggregate. -/
def build_array_initializer :
    Nat → GenState → List Expr → Res ExpressionValue × GenState
  | 0, g, _ => (.nofuel, g)
  | f + 1, g, elements =>
      if elements.isEmpty then (.err .notAllowZeroLengthArray, g)
      else
        andThen (build_array_elements f g elements) fun array_values g =>
          match array_values with
          | [] => (.panicked, g)
          | first :: others =>
              let element_type := first.typeOf
              match first_type_mismatch element_type others with
              | some bad =>
                  (.err (.typeMismatched (type_name element_type) (type_name bad)), g)
              | none =>
                  (.ok (.right (.arrayConst element_type (first :: others))), g)

/-- generator.rs lines 79-83: the element loop — lower and read each array
element in order. -/
def build_array_elements :
    Nat → GenState → List Expr → Res (List LEValue) × GenState
  | 0, g, _ => (.nofuel, g)
  | f + 1, g, elements =>
      match elements with
      | [] => (.ok [], g)
      | e :: rest =>
          andThen (build_expression f g e) fun ev g =>
          andThen (read_expression_value g ev) fun v g =>
          andThen (build_array_elements f g rest) fun vs g =>
            (.ok (v :: vs), g)

/-- generator.rs lines 130-222: binary operator dispatch.  Note line 155:
the assignment arm wraps build_assign's pointer result in
ExpressionValue::Left. -/
def build_binary_operator_expression :
    Nat → GenState → Operator → Expr → Expr → Res ExpressionValue × GenState
  | 0, g, _, _, _ => (.nofuel, g)
  | f + 1, g, op, l, r =>
      match op with
      | .plus =>
          andThen (build_expression f g l) fun left g =>
          andThen (build_expression f g r) fun right g =>
          andThen (build_arith g .plus left right) fun v g => (.ok (.right v), g)
      | .sub =>
          andThen (build_expression f g l) fun left g =>
          andThen (build_expression f g r) fun right g =>
          andThen (build_arith g .sub left right) fun v g => (.ok (.right v), g)
      | .mul =>
          andThen (build_expression f g l) fun left g =>
          andThen (build_expression f g r) fun right g =>
          andThen (build_arith g .mul left right) fun v g => (.ok (.right v), g)
      | .div =>
          andThen (build_expression f g l) fun left g =>
          andThen (build_expression f g r) fun right g =>
          andThen (build_arith g .div left right) fun v g => (.ok (.right v), g)
      | .assign =>
          andThen (build_expression f g l) fun left g =>
          andThen (build_expression f g r) fun right g =>
          andThen (build_assign g left right) fun p g => (.ok (.left p), g)
      | .equal =>
          andThen (build_expression f g l) fun left g =>
          andThen (build_expression f g r) fun right g =>
          andThen (build_compare g left right .equal) fun v g => (.ok (.right v), g)
      | .notEqual =>
          andThen (build_expression f g l) fun left g =>
          andThen (build_expression f g r) fun right g =>
          andThen (build_compare g left right .notEqual) fun v g => (.ok (.right v), g)
      | .greaterThan =>
          andThen (build_expression f g l) fun left g =>
          andThen (build_expression f g r) fun right g =>
          andThen (build_compare g left right .greaterThan) fun v g => (.ok (.right v), g)
      | .lessThan =>
          andThen (build_expression f g l) fun left g =>
          andThen (build_expression f g r) fun right g =>
          andThen (build_compare g left right .lessThan) fun v g => (.ok (.right v), g)
      | .greaterOrEqualThan =>
          andThen (build_expression f g l) fun left g =>
          andThen (build_expression f g r) fun right g =>
          andThen (build_compare g left right .greaterOrEqualThan) fun v g =>
            (.ok (.right v), g)
      | .lessOrEqualThan =>
          andThen (build_expression f g l) fun left g =>
          andThen (build_expression f g r) fun right g =>
          andThen (build_compare g left right .lessOrEqualThan) fun v g =>
            (.ok (.right v), g)
      | .dot =>
          andThen (build_expression f g l) fun left g =>
            match r with
            | .identifier name =>
                andThen (build_dot g left name) fun p g => (.ok (.left p), g)
            | _ => (.err (.noSuitableBinaryOperator .dot "" ""), g)
      | .and =>
          andThen (build_expression f g l) fun left g =>
          andThen (build_expression f g r) fun right g =>
          andThen (build_binary_logic g left right .logicAnd) fun v g =>
            (.ok (.right v), g)
      | .or =>
          andThen (build_expression f g l) fun left g =>
          andThen (build_expression f g r) fun right g =>
          andThen (build_binary_logic g left right .logicOr) fun v g =>
            (.ok (.right v), g)
      | .xor =>
          andThen (build_expression f g l) fun left g =>
          andThen (build_expression f g r) fun right g =>
          andThen (build_binary_logic g left right .logicXor) fun v g =>
            (.ok (.right v), g)
      | .mod =>
          andThen (build_expression f g l) fun left g =>
          andThen (build_expression f g r) fun right g =>
          andThen (build_arith g .mod left right) fun v g => (.ok (.right v), g)
      | _ => (.panicked, g)

/-- generator.rs lines 247-254: call lowering — resolve the function symbol,
lower every argument, delegate to the builder's build_call. -/
def build_call_expression :
    Nat → GenState → String → List Expr → Res ExpressionValue × GenState
  | 0, g, _, _ => (.nofuel, g)
  | f + 1, g, function_name, params =>
      match get_function g function_name with
      | .ok function =>
          andThen (build_call_params f g params) fun evs g =>
            build_call g function function_name evs
      | .err e => (.err e, g)
      | .panicked => (.panicked, g)
      | .nofuel => (.nofuel, g)

/-- generator.rs lines 249-252: the argument loop. -/
def build_call_params :
    Nat → GenState → List Expr → Res (List ExpressionValue) × GenState
  | 0, g, _ => (.nofuel, g)
  | f + 1, g, params =>
      match params with
      | [] => (.ok [], g)
      | p :: rest =>
          andThen (build_expression f g p) fun ev g =>
          andThen (build_call_params f g rest) fun evs g =>
            (.ok (ev :: evs), g)

/-- generator.rs lines 256-264: local variable definition — lower the
initializer, then create the local through the builder (with the exact
declared type when one is present); the statement's value is Unit. -/
def build_local_variable_definition :
    Nat → GenState → Variable → Res ExpressionValue × GenState
  | 0, g, _ => (.nofuel, g)
  | f + 1, g, v =>
      andThen (build_expression f g v.value) fun initial_value g =>
        match v.type_declarator with
        | some variable_type =>
            andThen
              (builder_create_local_variable_with_exact_type g v.name
                initial_value variable_type) fun _ g => (.ok .unit, g)
        | none =>
            andThen (builder_create_local_variable g v.name initial_value)
              fun _ g => (.ok .unit, g)

/-- generator.rs lines 266-293: build_code_block iterates the statements and
reports whether the block ended in a return. -/
def build_code_block : Nat → GenState → CodeBlock → Res Bool × GenState
  | 0, g, _ => (.nofuel, g)
  | f + 1, g, code_block => build_statements f g code_block.statements

/-- generator.rs lines 267-291: the statement loop of build_code_block; a
Return statement stops the iteration with the terminated flag. -/
def build_statements : Nat → GenState → List Statement → Res Bool × GenState
  | 0, g, _ => (.nofuel, g)
  | f + 1, g, stmts =>
      match stmts with
      | [] => (.ok false, g)
      | s :: rest =>
          match s with
          | .expressions e =>
              andThen (build_expression f g e) fun _ g => build_statements f g rest
          | .ret e =>
              andThen (build_expression f g e) fun value g =>
              andThen (build_return g value) fun _ g => (.ok true, g)
          | .ifStmt c tb eb =>
              andThen (build_if_statement f g c tb eb) fun _ g =>
                build_statements f g rest
          | .forLoop i c it b =>
              andThen (build_for_loop f g i c it b) fun _ g =>
                build_statements f g rest
          | .variableDefinition v =>
              andThen (build_local_variable_definition f g v) fun _ g =>
                build_statements f g rest
          | .voidStmt => build_statements f g rest
          | .whileLoop c b =>
              andThen (build_while_loop f g c b) fun _ g =>
                build_statements f g rest

/-- generator.rs lines 313-315: the for-loop's init statement is lowered only
when it is a variable definition (the fuel argument is recursion plumbing
only). -/
def build_for_init : Nat → GenState → Statement → Res Unit × GenState
  | 0, g, _ => (.nofuel, g)
  | f + 1, g, s =>
      match s with
      | .variableDefinition v =>
          andThen (build_local_variable_definition f g v) fun _ g => (.ok (), g)
      | _ => (.ok (), g)

/-- generator.rs lines 327-329: the for-loop's step statement is lowered only
when it is an expression statement (the fuel argument is recursion plumbing
only). -/
def build_for_step : Nat → GenState → Statement → Res Unit × GenState
  | 0, g, _ => (.nofuel, g)
  | f + 1, g, s =>
      match s with
      | .expressions e =>
          andThen (build_expression f g e) fun _ g => (.ok (), g)
      | _ => (.ok (), g)

/-- generator.rs lines 305-335: for-loop lowering.  The whole body runs under
an `if let Statement::Expressions` on the condition: any other condition
statement makes build_for_loop return Ok(()) without emitting anything.  The
terminated flag of the body (line 325) is discarded and the back-edge to the
cond block (line 330) is emitted unconditionally. -/
def build_for_loop :
    Nat → GenState → Statement → Statement → Statement → CodeBlock →
    Res Unit × GenState
  | 0, g, _, _, _, _ => (.nofuel, g)
  | f + 1, g, init_statement, condition, iterate, code_block =>
      match condition with
      | .expressions cond_expr =>
          match g.cursor with
          | none => (.panicked, g)
          | some cur =>
              let ((cond_block, body_block, after_block), g) :=
                create_three_blocks g cur
              let g := push_block_table g
              andThen (build_for_init f g init_statement) fun _ g =>
                let g := (g.emit (.br cond_block)).position_at_end cond_block
                andThen (build_expression f g cond_expr) fun cond g =>
                andThen (read_expression_value g cond) fun v g =>
                  if v.is_bool then
                    let g := (g.emit (.condBr v body_block after_block)
                             ).position_at_end body_block
                    andThen (build_code_block f g code_block) fun _ g =>
                    andThen (build_for_step f g iterate) fun _ g =>
                      let g := (g.emit (.br cond_block)).position_at_end after_block
                      (.ok (), pop_block_table g)
                  else (.err (.typeMismatched "" ""), g)
      | _ => (.ok (), g)

/-- generator.rs lines 337-360: while-loop lowering.  The body's terminated
flag (line 355) is discarded and the back-edge to the cond block (line 356)
is emitted unconditionally. -/
def build_while_loop :
    Nat → GenState → Option Expr → CodeBlock → Res Unit × GenState
  | 0, g, _, _ => (.nofuel, g)
  | f + 1, g, condition, code_block =>
      match g.cursor with
      | none => (.panicked, g)
      | some cur =>
          let ((cond_block, body_block, after_block), g) :=
            create_three_blocks g cur
          let g := (g.emit (.br cond_block)).position_at_end cond_block
          let g := push_block_table g
          let head : Res Unit × GenState :=
            match condition with
            | some cond_expr =>
                andThen (build_expression f g cond_expr) fun cond g =>
                andThen (read_expression_value g cond) fun v g =>
                  if v.is_bool then
                    (.ok (), g.emit (.condBr v body_block after_block))
                  else (.err (.typeMismatched "" ""), g)
            | none => (.ok (), g.emit (.br body_block))
          andThen head fun _ g =>
            let g := g.position_at_end body_block
            andThen (build_code_block f g code_block) fun _ g =>
              let g := (g.emit (.br cond_block)).position_at_end after_block
              (.ok (), pop_block_table g)

/-- generator.rs lines 362-390: if-statement lowering.  One scope is pushed
(line 373) before the then body and popped (line 388) after repositioning to
merge; the then and else bodies are both lowered under it.  Each arm's
branch to merge is guarded by that arm's terminated flag. -/
def build_if_statement :
    Nat → GenState → Expr → CodeBlock → Option CodeBlock → Res Unit × GenState
  | 0, g, _, _, _ => (.nofuel, g)
  | f + 1, g, cond, then_block, else_block =>
      match g.cursor with
      | none => (.panicked, g)
      | some cur =>
          let ((then_b, else_b, merge_b), g) := create_three_blocks g cur
          andThen (build_expression f g cond) fun cond_value g =>
          andThen (read_expression_value g cond_value) fun v g =>
            if v.is_bool then
              let g := (g.emit (.condBr v then_b else_b)).position_at_end then_b
              let g := push_block_table g
              andThen (build_code_block f g then_block) fun is_then_return g =>
                let g := if is_then_return then g else g.emit (.br merge_b)
                let g := g.position_at_end else_b
                let tail : Res Unit × GenState :=
                  match else_block with
                  | some el =>
                      andThen (build_code_block f g el) fun is_else_return g =>
                        (.ok (), if is_else_return then g else g.emit (.br merge_b))
                  | none => (.ok (), g.emit (.br merge_b))
                andThen tail fun _ g =>
                  (.ok (), pop_block_table (g.position_at_end merge_b))
            else (.err (.typeMismatched "" ""), g)

end

/-! ### Function lowering and the translation-unit driver (generator.rs) -/

/-- Parameter type resolution loop of build_function_prototype (generator.rs
lines 393-399). -/
def resolve_param_types (g : GenState) : List TypeDeclarator → Res (List LEType)
  | [] => .ok []
  | t :: rest =>
      match get_generic_type g t with
      | .ok ty =>
          match resolve_param_types g rest with
          | .ok tys => .ok (ty :: tys)
          | .err e => .err e
          | .panicked => .panicked
          | .nofuel => .nofuel
      | .err e => .err e
      | .panicked => .panicked
      | .nofuel => .nofuel

/-- generator.rs lines 392-425: resolve parameter and return types, create
the external function value (its module handle modelled by a fresh id) and
register the function symbol. -/
def build_function_prototype (g : GenState) (prototype : FunctionPrototype) :
    Res FunctionSym × GenState :=
  match resolve_param_types g prototype.param_types with
  | .ok param_types =>
      let ret : Res (Option LEType) :=
        match prototype.return_type with
        | none => .ok none
        | some type_declarator =>
            match get_generic_type g type_declarator with
            | .ok ty => .ok (some ty)
            | .err e => .err e
            | .panicked => .panicked
            | .nofuel => .nofuel
      match ret with
      | .ok return_type =>
          let (id, g) := g.fresh_reg
          let le_function : FunctionSym := ⟨param_types, return_type, id⟩
          andThen (insert_global_function g prototype.name le_function)
            fun _ g => (.ok le_function, g)
      | .err e => (.err e, g)
      | .panicked => (.panicked, g)
      | .nofuel => (.nofuel, g)
  | .err e => (.err e, g)
  | .panicked => (.panicked, g)
  | .nofuel => (.nofuel, g)

/-- generator.rs lines 427-437: the return block loads the return slot (when
there is one) and returns it, otherwise returns void. -/
def build_return_block (g : GenState) (return_block : Nat)
    (return_variable : Option LEPointerValue) : Res Unit × GenState :=
  let g := g.position_at_end return_block
  match return_variable with
  | some p =>
      andThen (build_load g p) fun v g => (.ok (), g.emit (.retInstr (some v)))
  | none => (.ok (), g.emit (.retInstr none))

/-- generator.rs lines 472-484: CodeGenerator::create_local_variable saves
the cursor, repositions into the current function's entry block (before its
first instruction; intra-block position is abstracted to block granularity
here), creates the local through the builder and restores the cursor.  On an
error the cursor is not restored, mirroring the early return of `?`.  The
target_type parameter is unused by the source body. -/
def cg_create_local_variable (g : GenState) (name : String)
    (target_type : LEType) (initial_value : ExpressionValue) :
    Res LEPointerValue × GenState :=
  match g.cursor with
  | none => (.panicked, g)
  | some current_insert_block =>
      match g.current_entry with
      | none => (.panicked, g)
      | some entry_block =>
          let g := g.position_at_end entry_block
          andThen (builder_create_local_variable g name initial_value)
            fun le_variable g =>
              (.ok le_variable, g.position_at_end current_insert_block)

/-- generator.rs lines 457-461: bind each function parameter (an SSA argument
value, modelled as a fresh register of the parameter type) to a local
allocation; the zip truncates to the shorter of names and parameter types. -/
def bind_parameters : GenState → List (String × LEType) → Res Unit × GenState
  | g, [] => (.ok (), g)
  | g, (name, ty) :: rest =>
      let (pr, g) := g.fresh_reg
      andThen (cg_create_local_variable g name ty (.right (.reg pr ty)))
        fun _ g => bind_parameters g rest

/-- generator.rs lines 439-469: function lowering — prototype, entry and
return blocks, return slot for non-void functions, parameter binding under a
pushed scope, body lowering, branch to the return block when the body did
not end in a return, scope pop. -/
def build_function (fuel : Nat) (g : GenState)
    (function_node : FunctionDefinition) : Res FunctionSym × GenState :=
  andThen (build_function_prototype g function_node.prototype)
    fun function_value g =>
      let (entry, g) := g.append_basic_block
      let (return_block, g) := g.append_basic_block
      let setup : Res Unit × GenState :=
        match function_value.return_type with
        | some none_void_type =>
            let g := g.position_at_end entry
            let (return_variable, g) :=
              build_alloca_without_initialize g none_void_type
            let g := set_current_context g entry (some return_variable) return_block
            let g := g.position_at_end return_block
            build_return_block g return_block (some return_variable)
        | none =>
            let g := set_current_context g entry none return_block
            build_return_block g return_block none
      andThen setup fun _ g =>
        let g := g.position_at_end entry
        let g := push_block_table g
        andThen (bind_parameters g
            (function_node.param_names.zip function_value.param_types))
          fun _ g =>
        andThen (build_code_block fuel g function_node.code_block)
          fun is_return_block g =>
            let g := if is_return_block then g else g.emit (.br return_block)
            (.ok function_value, pop_block_table g)

/-- generator.rs lines 487-490: the extern prototype loop. -/
def generate_extern_functions :
    GenState → List FunctionPrototype → Res Unit × GenState
  | g, [] => (.ok (), g)
  | g, p :: rest =>
      andThen (build_function_prototype g p) fun _ g =>
        generate_extern_functions g rest

/-- generator.rs lines 491-494: the function definition loop. -/
def generate_function_definitions (fuel : Nat) :
    GenState → List FunctionDefinition → Res Unit × GenState
  | g, [] => (.ok (), g)
  | g, fd :: rest =>
      andThen (build_function fuel g fd) fun _ g =>
        generate_function_definitions fuel g rest

/-- generator.rs lines 486-496: generate_all_functions — all extern
prototypes, then all function definitions. -/
def generate_all_functions (fuel : Nat) (g : GenState) (ast : Ast) :
    Res Unit × GenState :=
  andThen (generate_extern_functions g ast.extern_functions) fun _ g =>
    generate_function_definitions fuel g ast.function_definitions

/-- generator.rs lines 499-516: one global variable — lower the initializer,
then create the global (with the exact declared type when present). -/
def generate_global_variable (fuel : Nat) (g : GenState) (var : Variable) :
    Res Unit × GenState :=
  andThen (build_expression fuel g var.value) fun expr_value g =>
    match var.type_declarator with
    | some exact_type =>
        match get_generic_type g exact_type with
        | .ok ty =>
            andThen
              (create_global_variable_with_exact_type g var.name
                expr_value ty) fun _ g => (.ok (), g)
        | .err e => (.err e, g)
        | .panicked => (.panicked, g)
        | .nofuel => (.nofuel, g)
    | none =>
        andThen (create_global_variable g var.name expr_value)
          fun _ g => (.ok (), g)

/-- generator.rs lines 498-518: generate_all_global_variables. -/
def generate_all_global_variables (fuel : Nat) :
    GenState → List Variable → Res Unit × GenState
  | g, [] => (.ok (), g)
  | g, v :: rest =>
      andThen (generate_global_variable fuel g v) fun _ g =>
        generate_all_global_variables fuel g rest

/-- Member type resolution loop of generate_all_global_structures
(generator.rs lines 536-541). -/
def resolve_members (g : GenState) :
    List (String × TypeDeclarator) → Res StructFields
  | [] => .ok []
  | (name, ty) :: rest =>
      match get_generic_type g ty with
      | .ok t =>
          match resolve_members g rest with
          | .ok ms => .ok ((name, t) :: ms)
          | .err e => .err e
          | .panicked => .panicked
          | .nofuel => .nofuel
      | .err e => .err e
      | .panicked => .panicked
      | .nofuel => .nofuel

/-- generator.rs lines 534-546: declare every record type — resolve member
types and intern the record layout. -/
def generate_all_global_structures :
    GenState → List Structure → Res Unit × GenState
  | g, [] => (.ok (), g)
  | g, s :: rest =>
      match resolve_members g s.members with
      | .ok members =>
          andThen (insert_global_type g s.name members) fun _ g =>
            generate_all_global_structures g rest
      | .err e => (.err e, g)
      | .panicked => (.panicked, g)
      | .nofuel => (.nofuel, g)

/-- generator.rs lines 520-525: compile — global variables first, then record
type declarations, then extern prototypes and function definitions. -/
def compile (fuel : Nat) (g : GenState) (ast : Ast) : Res Unit × GenState :=
  andThen (generate_all_global_variables fuel g ast.globals_variables) fun _ g =>
  andThen (generate_all_global_structures g ast.globals_structures) fun _ g =>
  andThen (generate_all_functions fuel g ast) fun _ g =>
    (.ok (), g)

/-! ### Observables used by the verification statements -/

/-- The instruction list of a basic block in the emitted module. -/
def block_instrs (g : GenState) (b : Nat) : List Instr :=
  match g.blocks.find? (fun p => p.1 == b) with
  | some p => p.2
  | none => []

/-- The depth of the scope (block-table) stack. -/
def scope_depth (g : GenState) : Nat := g.block_tables.length

def cond_br_count_blocks : List (Nat × List Instr) → Nat
  | [] => 0
  | p :: rest => p.2.countP Instr.is_cond_br + cond_br_count_blocks rest

/-- How many conditional branch instructions the module contains. -/
def cond_br_count (g : GenState) : Nat := cond_br_count_blocks g.blocks

/-! ### Concrete states for the boundary scenarios -/

/-- A minimal state for lowering statements inside a function body: one empty
block (id 0) under the cursor, the global scope frame, and a return block
(id 9) of a void function. -/
def base_state : GenState :=
  { blocks := [(0, [])], cursor := some 0, next_block := 1, next_reg := 0,
    block_tables := [[]], global_functions := [], global_types := [],
    current_entry := some 0, return_variable := none, return_block := some 9,
    events := [] }

/-- base_state with the record type `struct P { x: i32; y: i32; }`
interned. -/
def struct_state : GenState :=
  { base_state with
      global_types := [("P", [("x", .integer 32 true), ("y", .integer 32 true)])] }

/-- base_state with two i32 locals `a` and `b` in scope. -/
def var_state : GenState :=
  { base_state with
      block_tables := [[("a", ⟨.integer 32 true, 100⟩),
                        ("b", ⟨.integer 32 true, 101⟩)]] }

/-- The state the driver starts a compilation from: no blocks, no cursor,
only the global scope frame. -/
def driver_state : GenState :=
  { blocks := [], cursor := none, next_block := 0, next_reg := 0,
    block_tables := [[]], global_functions := [], global_types := [],
    current_entry := none, return_variable := none, return_block := none,
    events := [] }

/-- A translation unit with one global (integer initializer) and one record
type declaration. -/
def ast_global_and_struct : Ast :=
  { globals_variables := [⟨"g", none, .numberLiteral (.integer 1)⟩],
    globals_structures := [⟨"S", [("x", .typeIdentifier "i32")]⟩],
    extern_functions := [],
    function_definitions := [] }

/-- A translation unit whose global's initializer is a record initializer of
the record type declared in the same unit. -/
def ast_record_global : Ast :=
  { globals_variables :=
      [⟨"g", none, .structureInitializer "S" [("x", .numberLiteral (.integer 1))]⟩],
    globals_structures := [⟨"S", [("x", .typeIdentifier "i32")]⟩],
    extern_functions := [],
    function_definitions := [] }

/-! ### Preservation machinery: expression lowering never touches the scope
stack, the event trace, or the set of conditional branches -/

def expr_inv (g g' : GenState) : Prop :=
  g'.block_tables = g.block_tables ∧ g'.events = g.events ∧
    cond_br_count g' = cond_br_count g

theorem expr_inv_refl (g : GenState) : expr_inv g g := ⟨rfl, rfl, rfl⟩

theorem expr_inv_trans {g1 g2 g3 : GenState} (h1 : expr_inv g1 g2)
    (h2 : expr_inv g2 g3) : expr_inv g1 g3 :=
  ⟨h2.1.trans h1.1, h2.2.1.trans h1.2.1, h2.2.2.trans h1.2.2⟩

theorem cond_br_count_blocks_append_instr (b : Nat) (i : Instr)
    (h : i.is_cond_br = false) (bs : List (Nat × List Instr)) :
    cond_br_count_blocks (append_instr b i bs) = cond_br_count_blocks bs := by
  induction bs with
  | nil => rfl
  | cons p rest ih =>
      simp only [append_instr]
      split
      · simp [cond_br_count_blocks, List.countP_append, List.countP_cons, h]
      · simp [cond_br_count_blocks, ih]

theorem expr_inv_emit {g : GenState} {i : Instr} (h : i.is_cond_br = false) :
    expr_inv g (g.emit i) := by
  rcases hc : g.cursor with _ | b
  · simp only [GenState.emit, hc]
    exact expr_inv_refl g
  · simp only [GenState.emit, hc]
    exact ⟨rfl, rfl, cond_br_count_blocks_append_instr b i h g.blocks⟩

theorem cond_br_count_blocks_insert (a fresh : Nat)
    (bs : List (Nat × List Instr)) :
    cond_br_count_blocks (insert_block_entry a fresh bs) =
      cond_br_count_blocks bs := by
  induction bs with
  | nil => simp [insert_block_entry, cond_br_count_blocks]
  | cons p rest ih =>
      simp only [insert_block_entry]
      split
      · simp [cond_br_count_blocks]
      · simp [cond_br_count_blocks, ih]

theorem expr_inv_insert_basic_block_after (g : GenState) (a : Nat) :
    expr_inv g (g.insert_basic_block_after a).2 :=
  ⟨rfl, rfl, cond_br_count_blocks_insert a g.next_block g.blocks⟩

theorem expr_inv_create_three_blocks (g : GenState) (cur : Nat) :
    expr_inv g (create_three_blocks g cur).2 := by
  refine ⟨rfl, rfl, ?_⟩
  show cond_br_count_blocks
      (insert_block_entry (g.next_block + 1) (g.next_block + 2)
        (insert_block_entry g.next_block (g.next_block + 1)
          (insert_block_entry cur g.next_block g.blocks))) =
    cond_br_count_blocks g.blocks
  rw [cond_br_count_blocks_insert, cond_br_count_blocks_insert,
      cond_br_count_blocks_insert]

theorem expr_inv_position_at_end (g : GenState) (b : Nat) :
    expr_inv g (g.position_at_end b) := ⟨rfl, rfl, rfl⟩

theorem andThen_expr_inv {α β : Type} {g : GenState} {r : Res α × GenState}
    {k : α → GenState → Res β × GenState}
    (h1 : expr_inv g r.2) (h2 : ∀ a, expr_inv r.2 (k a r.2).2) :
    expr_inv g (andThen r k).2 := by
  obtain ⟨res, g1⟩ := r
  cases res with
  | ok a => exact expr_inv_trans h1 (h2 a)
  | err e => exact h1
  | panicked => exact h1
  | nofuel => exact h1

theorem expr_inv_read (g : GenState) (ev : ExpressionValue) :
    expr_inv g (read_expression_value g ev).2 := by
  cases ev with
  | right v => exact expr_inv_refl g
  | left p => exact expr_inv_emit rfl
  | unit => exact expr_inv_refl g

theorem expr_inv_build_store (g : GenState) (p : LEPointerValue)
    (v : ExpressionValue) : expr_inv g (build_store g p v).2 := by
  unfold build_store
  exact andThen_expr_inv (expr_inv_read g v) fun a =>
    expr_inv_emit rfl

theorem expr_inv_build_load (g : GenState) (p : LEPointerValue) :
    expr_inv g (build_load g p).2 :=
  expr_inv_emit rfl

theorem expr_inv_build_assign (g : GenState) (l r : ExpressionValue) :
    expr_inv g (build_assign g l r).2 := by
  unfold build_assign
  cases l with
  | left p =>
      refine andThen_expr_inv (expr_inv_read g r) fun a => ?_
      split
      · exact expr_inv_emit rfl
      · exact expr_inv_refl _
  | right v => exact expr_inv_refl g
  | unit => exact expr_inv_refl g

theorem expr_inv_build_arith (g : GenState) (op : Operator)
    (l r : ExpressionValue) : expr_inv g (build_arith g op l r).2 := by
  unfold build_arith
  refine andThen_expr_inv (expr_inv_read g l) fun a => ?_
  refine andThen_expr_inv (expr_inv_read _ r) fun b => ?_
  split
  · exact expr_inv_emit rfl
  · exact expr_inv_refl _

theorem expr_inv_build_compare (g : GenState) (l r : ExpressionValue)
    (op : CompareBinaryOperator) : expr_inv g (build_compare g l r op).2 := by
  unfold build_compare
  refine andThen_expr_inv (expr_inv_read g l) fun a => ?_
  refine andThen_expr_inv (expr_inv_read _ r) fun b => ?_
  split
  · exact expr_inv_emit rfl
  · exact expr_inv_refl _

theorem expr_inv_build_binary_logic (g : GenState) (l r : ExpressionValue)
    (op : LogicBinaryOperator) :
    expr_inv g (build_binary_logic g l r op).2 := by
  unfold build_binary_logic
  refine andThen_expr_inv (expr_inv_read g l) fun a => ?_
  refine andThen_expr_inv (expr_inv_read _ r) fun b => ?_
  split
  · exact expr_inv_emit rfl
  · exact expr_inv_refl _

theorem expr_inv_build_neg (g : GenState) (v : ExpressionValue) :
    expr_inv g (build_neg g v).2 := by
  unfold build_neg
  refine andThen_expr_inv (expr_inv_read g v) fun a => ?_
  split
  · exact expr_inv_emit rfl
  · exact expr_inv_refl _

theorem expr_inv_build_dot (g : GenState) (l : ExpressionValue) (n : String) :
    expr_inv g (build_dot g l n).2 := by
  unfold build_dot
  split
  · split
    · split
      · split
        · exact expr_inv_emit rfl
        · exact expr_inv_refl _
      · exact expr_inv_refl _
    · exact expr_inv_refl _
  · exact expr_inv_refl _

theorem expr_inv_read_arguments (g : GenState) (ps : List ExpressionValue) :
    expr_inv g (read_arguments g ps).2 := by
  induction ps generalizing g with
  | nil => exact expr_inv_refl g
  | cons p rest ih =>
      refine andThen_expr_inv (expr_inv_read g p) fun v => ?_
      exact andThen_expr_inv (ih _) fun vs => expr_inv_refl _

theorem expr_inv_build_call (g : GenState) (f : FunctionSym) (n : String)
    (ps : List ExpressionValue) : expr_inv g (build_call g f n ps).2 := by
  unfold build_call
  refine andThen_expr_inv (expr_inv_read_arguments g ps) fun args => ?_
  split
  · cases f.return_type with
    | some rt => exact expr_inv_emit rfl
    | none => exact expr_inv_emit rfl
  · exact expr_inv_refl _

theorem expr_inv_read_values_unwrap (g : GenState)
    (l : List (Nat × ExpressionValue)) :
    expr_inv g (read_values_unwrap g l).2 := by
  induction l generalizing g with
  | nil => exact expr_inv_refl g
  | cons p rest ih =>
      simp only [read_values_unwrap]
      rcases hr : read_expression_value g p.2 with ⟨res, g1⟩
      have hg1 : expr_inv g g1 := by
        have h := expr_inv_read g p.2
        rw [hr] at h
        exact h
      cases res with
      | ok v =>
          exact expr_inv_trans hg1
            (andThen_expr_inv (ih g1) fun vs => expr_inv_refl _)
      | err e => exact hg1
      | panicked => exact hg1
      | nofuel => exact hg1

theorem expr_inv_build_identifier (g : GenState) (n : String) :
    expr_inv g (build_identifier_expression g n).2 := by
  unfold build_identifier_expression
  split
  · exact expr_inv_refl g
  · split
    · exact expr_inv_refl g
    · split <;> exact expr_inv_refl g

theorem expr_inv_build_number_literal (g : GenState) (n : Number) :
    expr_inv g (build_number_literal_expression g n).2 := by
  cases n <;> exact expr_inv_refl g

/-- The whole expression-lowering family preserves the scope stack, the event
trace and the number of conditional branches — also on error paths. -/
theorem expr_family_inv (f : Nat) :
    (∀ g e, expr_inv g (build_expression f g e).2) ∧
    (∀ g s vs, expr_inv g (build_structure_initializer f g s vs).2) ∧
    (∀ g fields vs, expr_inv g (build_struct_init_values f g fields vs).2) ∧
    (∀ g op e, expr_inv g (build_unary_operator_expression f g op e).2) ∧
    (∀ g es, expr_inv g (build_array_initializer f g es).2) ∧
    (∀ g es, expr_inv g (build_array_elements f g es).2) ∧
    (∀ g op l r, expr_inv g (build_binary_operator_expression f g op l r).2) ∧
    (∀ g n ps, expr_inv g (build_call_expression f g n ps).2) ∧
    (∀ g ps, expr_inv g (build_call_params f g ps).2) := by
  induction f with
  | zero =>
      exact ⟨fun g e => expr_inv_refl g, fun g s vs => expr_inv_refl g,
        fun g fs vs => expr_inv_refl g, fun g op e => expr_inv_refl g,
        fun g es => expr_inv_refl g, fun g es => expr_inv_refl g,
        fun g op l r => expr_inv_refl g, fun g n ps => expr_inv_refl g,
        fun g ps => expr_inv_refl g⟩
  | succ f ih =>
      obtain ⟨ihE, ihS, ihSV, ihU, ihA, ihAE, ihB, ihC, ihCP⟩ := ih
      refine ⟨?_, ?_, ?_, ?_, ?_, ?_, ?_, ?_, ?_⟩
      · intro g e
        cases e with
        | unaryOperator op x => exact ihU g op x
        | binaryOperator op l r => exact ihB g op l r
        | numberLiteral n => exact expr_inv_build_number_literal g n
        | callExpression n ps => exact ihC g n ps
        | identifier n => exact expr_inv_build_identifier g n
        | arrayInitializer es => exact ihA g es
        | structureInitializer n vs => exact ihS g n vs
      · intro g s vs
        simp only [build_structure_initializer]
        split
        · split
          · split
            · exact expr_inv_refl g
            · exact andThen_expr_inv (ihSV g _ vs) fun va =>
                andThen_expr_inv (expr_inv_read_values_unwrap _ _) fun vals =>
                  expr_inv_refl _
          · exact expr_inv_refl g
        · exact expr_inv_refl g
        · exact expr_inv_refl g
        · exact expr_inv_refl g
        · exact expr_inv_refl g
      · intro g fields vs
        cases vs with
        | nil => exact expr_inv_refl g
        | cons p rest =>
            obtain ⟨name, e⟩ := p
            simp only [build_struct_init_values]
            refine andThen_expr_inv (ihE g e) fun v => ?_
            split
            · exact andThen_expr_inv (ihSV _ fields rest) fun tail =>
                expr_inv_refl _
            · exact expr_inv_refl _
      · intro g op e
        simp only [build_unary_operator_expression]
        refine andThen_expr_inv (ihE g e) fun v => ?_
        cases op <;>
          first
            | exact expr_inv_refl _
            | exact andThen_expr_inv (expr_inv_build_neg _ _) fun x =>
                expr_inv_refl _
      · intro g es
        simp only [build_array_initializer]
        split
        · exact expr_inv_refl g
        · refine andThen_expr_inv (ihAE g es) fun vals => ?_
          split
          · exact expr_inv_refl _
          · split
            · exact expr_inv_refl _
            · exact expr_inv_refl _
      · intro g es
        cases es with
        | nil => exact expr_inv_refl g
        | cons e rest =>
            simp only [build_array_elements]
            refine andThen_expr_inv (ihE g e) fun ev => ?_
            refine andThen_expr_inv (expr_inv_read _ ev) fun v => ?_
            exact andThen_expr_inv (ihAE _ rest) fun vs => expr_inv_refl _
      · intro g op l r
        cases op
        case dot =>
            simp only [build_binary_operator_expression]
            refine andThen_expr_inv (ihE g l) fun left => ?_
            split
            · exact andThen_expr_inv (expr_inv_build_dot _ _ _) fun p =>
                expr_inv_refl _
            · exact expr_inv_refl _
        case not => exact expr_inv_refl g
        case rev => exact expr_inv_refl g
        all_goals
          simp only [build_binary_operator_expression]
        all_goals
          refine andThen_expr_inv (ihE g l) fun left => ?_
        all_goals
          refine andThen_expr_inv (ihE _ r) fun right => ?_
        all_goals
          first
            | exact andThen_expr_inv (expr_inv_build_arith _ _ _ _) fun v =>
                expr_inv_refl _
            | exact andThen_expr_inv (expr_inv_build_assign _ _ _) fun v =>
                expr_inv_refl _
            | exact andThen_expr_inv (expr_inv_build_compare _ _ _ _) fun v =>
                expr_inv_refl _
            | exact andThen_expr_inv (expr_inv_build_binary_logic _ _ _ _) fun v =>
                expr_inv_refl _
      · intro g n ps
        simp only [build_call_expression]
        split
        · refine andThen_expr_inv (ihCP g ps) fun evs => ?_
          exact expr_inv_build_call _ _ _ _
        · exact expr_inv_refl g
        · exact expr_inv_refl g
        · exact expr_inv_refl g
      · intro g ps
        cases ps with
        | nil => exact expr_inv_refl g
        | cons p rest =>
            simp only [build_call_params]
            refine andThen_expr_inv (ihE g p) fun ev => ?_
            exact andThen_expr_inv (ihCP _ rest) fun evs => expr_inv_refl _

/-! ### Preservation machinery for statements -/

/-- Local-variable creation inserts a symbol into the top frame: the depth of
the scope stack, the events and the conditional branches are untouched. -/
def local_inv (g g' : GenState) : Prop :=
  g'.block_tables.length = g.block_tables.length ∧ g'.events = g.events ∧
    cond_br_count g' = cond_br_count g

theorem local_inv_refl (g : GenState) : local_inv g g := ⟨rfl, rfl, rfl⟩

theorem local_inv_trans {g1 g2 g3 : GenState} (h1 : local_inv g1 g2)
    (h2 : local_inv g2 g3) : local_inv g1 g3 :=
  ⟨h2.1.trans h1.1, h2.2.1.trans h1.2.1, h2.2.2.trans h1.2.2⟩

theorem local_inv_of_expr_inv {g g' : GenState} (h : expr_inv g g') :
    local_inv g g' := ⟨by rw [h.1], h.2.1, h.2.2⟩

theorem andThen_local_inv {α β : Type} {g : GenState} {r : Res α × GenState}
    {k : α → GenState → Res β × GenState}
    (h1 : local_inv g r.2) (h2 : ∀ a, local_inv r.2 (k a r.2).2) :
    local_inv g (andThen r k).2 := by
  obtain ⟨res, g1⟩ := r
  cases res with
  | ok a => exact local_inv_trans h1 (h2 a)
  | err e => exact h1
  | panicked => exact h1
  | nofuel => exact h1

theorem expr_inv_step {g0 g : GenState} (h0 : expr_inv g0 g) {i : Instr}
    (hi : i.is_cond_br = false) : expr_inv g0 (g.emit i) :=
  expr_inv_trans h0 (expr_inv_emit hi)

theorem local_inv_insert_local (g : GenState) (n : String)
    (p : LEPointerValue) : local_inv g (g.insert_local n p).2 := by
  rcases ht : g.block_tables with _ | ⟨t, rest⟩ <;>
    simp only [GenState.insert_local, ht]
  · exact local_inv_refl g
  · split
    · exact local_inv_refl g
    · exact ⟨by simp [ht], rfl, rfl⟩

theorem local_inv_builder_create_local_variable (g : GenState) (n : String)
    (init : ExpressionValue) :
    local_inv g (builder_create_local_variable g n init).2 := by
  simp only [builder_create_local_variable, GenState.fresh_reg]
  refine andThen_local_inv (local_inv_of_expr_inv (expr_inv_read g init))
    fun v => ?_
  refine andThen_local_inv ?_ fun u => local_inv_refl _
  refine local_inv_trans ?_ (local_inv_insert_local _ _ _)
  refine local_inv_of_expr_inv
    (expr_inv_step (expr_inv_step ⟨?_, ?_, ?_⟩ ?_) ?_) <;> rfl

theorem local_inv_builder_create_exact (g : GenState) (n : String)
    (init : ExpressionValue) (d : TypeDeclarator) :
    local_inv g (builder_create_local_variable_with_exact_type g n init d).2 := by
  simp only [builder_create_local_variable_with_exact_type, GenState.fresh_reg]
  split
  · refine andThen_local_inv (local_inv_of_expr_inv (expr_inv_read g init))
      fun v => ?_
    split
    · refine andThen_local_inv ?_ fun u => local_inv_refl _
      refine local_inv_trans ?_ (local_inv_insert_local _ _ _)
      refine local_inv_of_expr_inv
        (expr_inv_step (expr_inv_step ⟨?_, ?_, ?_⟩ ?_) ?_) <;> rfl
    · exact local_inv_refl _
  · exact local_inv_refl g
  · exact local_inv_refl g
  · exact local_inv_refl g

theorem local_inv_build_local_variable_definition (f : Nat) (g : GenState)
    (v : Variable) : local_inv g (build_local_variable_definition f g v).2 := by
  cases f with
  | zero => exact local_inv_refl g
  | succ f =>
      simp only [build_local_variable_definition]
      refine andThen_local_inv
        (local_inv_of_expr_inv ((expr_family_inv f).1 g v.value)) fun iv => ?_
      split
      · exact andThen_local_inv (local_inv_builder_create_exact _ _ _ _)
          fun p => local_inv_refl _
      · exact andThen_local_inv (local_inv_builder_create_local_variable _ _ _)
          fun p => local_inv_refl _

theorem local_inv_build_for_init (f : Nat) (g : GenState) (s : Statement) :
    local_inv g (build_for_init f g s).2 := by
  cases f with
  | zero => exact local_inv_refl g
  | succ f =>
      cases s <;> simp only [build_for_init] <;>
        try exact local_inv_refl g
      case variableDefinition v =>
        exact andThen_local_inv
          (local_inv_build_local_variable_definition f g v) fun u =>
            local_inv_refl _

/-- Post-condition for statement lowering: the event trace is unchanged (even
on error paths), and on success the scope-stack depth is restored. -/
def stmt_post {α : Type} (g : GenState) (r : Res α × GenState) : Prop :=
  r.2.events = g.events ∧
    ∀ a, r.1 = .ok a → r.2.block_tables.length = g.block_tables.length

theorem stmt_post_of_expr_inv {α : Type} {g : GenState} {r : Res α × GenState}
    (h : expr_inv g r.2) : stmt_post g r :=
  ⟨h.2.1, fun a _ => by rw [h.1]⟩

theorem stmt_post_of_local_inv {α : Type} {g : GenState} {r : Res α × GenState}
    (h : local_inv g r.2) : stmt_post g r :=
  ⟨h.2.1, fun a _ => h.1⟩

theorem andThen_stmt_post {α β : Type} {g : GenState} {r : Res α × GenState}
    {k : α → GenState → Res β × GenState}
    (h1 : stmt_post g r) (h2 : ∀ a, stmt_post r.2 (k a r.2)) :
    stmt_post g (andThen r k) := by
  obtain ⟨res, g1⟩ := r
  cases res with
  | ok a =>
      exact ⟨((h2 a).1).trans h1.1,
        fun b hb => (((h2 a).2 b hb)).trans (h1.2 a rfl)⟩
  | err e => exact ⟨h1.1, fun b hb => by cases hb⟩
  | panicked => exact ⟨h1.1, fun b hb => by cases hb⟩
  | nofuel => exact ⟨h1.1, fun b hb => by cases hb⟩

theorem stmt_post_here {α : Type} (g : GenState) (r : Res α) :
    stmt_post g (r, g) := ⟨rfl, fun a _ => rfl⟩

@[simp] theorem emit_block_tables (g : GenState) (i : Instr) :
    (g.emit i).block_tables = g.block_tables := by
  rcases hc : g.cursor with _ | b <;> simp [GenState.emit, hc]

@[simp] theorem emit_events (g : GenState) (i : Instr) :
    (g.emit i).events = g.events := by
  rcases hc : g.cursor with _ | b <;> simp [GenState.emit, hc]

@[simp] theorem position_block_tables (g : GenState) (b : Nat) :
    (g.position_at_end b).block_tables = g.block_tables := rfl

@[simp] theorem position_events (g : GenState) (b : Nat) :
    (g.position_at_end b).events = g.events := rfl

@[simp] theorem push_block_tables_length (g : GenState) :
    (push_block_table g).block_tables.length = g.block_tables.length + 1 := by
  simp [push_block_table]

@[simp] theorem push_events (g : GenState) :
    (push_block_table g).events = g.events := rfl

@[simp] theorem pop_block_tables_length (g : GenState) :
    (pop_block_table g).block_tables.length = g.block_tables.length - 1 := by
  simp [pop_block_table]

@[simp] theorem pop_events (g : GenState) :
    (pop_block_table g).events = g.events := rfl

@[simp] theorem ite_emit_events (b : Bool) (g : GenState) (i : Instr) :
    (if b then g else g.emit i).events = g.events := by cases b <;> simp

@[simp] theorem ite_emit_block_tables (b : Bool) (g : GenState) (i : Instr) :
    (if b then g else g.emit i).block_tables = g.block_tables := by
  cases b <;> simp

/-- generator.rs lines 295-303 never touch scopes, events or conditional
branches. -/
theorem expr_inv_build_return (g : GenState) (v : ExpressionValue) :
    expr_inv g (build_return g v).2 := by
  unfold build_return
  split
  · exact expr_inv_refl g
  · split
    · exact expr_inv_step (expr_inv_build_store _ _ _) rfl
    · exact expr_inv_emit rfl

theorem expr_inv_build_for_step (f : Nat) (g : GenState) (s : Statement) :
    expr_inv g (build_for_step f g s).2 := by
  cases f with
  | zero => exact expr_inv_refl g
  | succ f =>
      cases s <;> try exact expr_inv_refl g
      case expressions e =>
        exact andThen_expr_inv ((expr_family_inv f).1 g e) fun u =>
          expr_inv_refl _

/-- As stmt_post, but one scope frame deeper (between a push and its pop). -/
def stmt_post_plus {α : Type} (g : GenState) (r : Res α × GenState) : Prop :=
  r.2.events = g.events ∧
    ∀ a, r.1 = .ok a →
      r.2.block_tables.length = g.block_tables.length + 1

/-- As stmt_post, but ending one scope frame shallower (the closing pop). -/
def stmt_post_drop {α : Type} (g : GenState) (r : Res α × GenState) : Prop :=
  r.2.events = g.events ∧
    ∀ a, r.1 = .ok a →
      r.2.block_tables.length = g.block_tables.length - 1

theorem stmt_post_pre {α : Type} {g0 g1 : GenState} {r : Res α × GenState}
    (hev : g1.events = g0.events)
    (hlen : g1.block_tables.length = g0.block_tables.length)
    (h : stmt_post g1 r) : stmt_post g0 r :=
  ⟨h.1.trans hev, fun a ha => (h.2 a ha).trans hlen⟩

theorem stmt_post_plus_start {α : Type} {g0 g1 : GenState}
    {r : Res α × GenState} (hev : g1.events = g0.events)
    (hlen : g1.block_tables.length = g0.block_tables.length + 1)
    (h : stmt_post g1 r) : stmt_post_plus g0 r :=
  ⟨h.1.trans hev, fun a ha => by rw [h.2 a ha, hlen]⟩

theorem andThen_stmt_drop {α β : Type} {g : GenState} {r : Res α × GenState}
    {k : α → GenState → Res β × GenState}
    (h1 : stmt_post g r) (h2 : ∀ a, stmt_post_drop r.2 (k a r.2)) :
    stmt_post_drop g (andThen r k) := by
  obtain ⟨res, g1⟩ := r
  cases res with
  | ok a =>
      refine ⟨((h2 a).1).trans h1.1, fun b hb => ?_⟩
      show (k a g1).2.block_tables.length = g.block_tables.length - 1
      have h3 : (k a g1).2.block_tables.length =
          g1.block_tables.length - 1 := (h2 a).2 b hb
      have h4 : g1.block_tables.length = g.block_tables.length :=
        h1.2 a rfl
      rw [h3, h4]
  | err e => exact ⟨h1.1, fun b hb => by cases hb⟩
  | panicked => exact ⟨h1.1, fun b hb => by cases hb⟩
  | nofuel => exact ⟨h1.1, fun b hb => by cases hb⟩

theorem andThen_plus_drop {α β : Type} {g : GenState} {r : Res α × GenState}
    {k : α → GenState → Res β × GenState}
    (h1 : stmt_post_plus g r) (h2 : ∀ a, stmt_post_drop r.2 (k a r.2)) :
    stmt_post g (andThen r k) := by
  obtain ⟨res, g1⟩ := r
  cases res with
  | ok a =>
      refine ⟨((h2 a).1).trans h1.1, fun b hb => ?_⟩
      show (k a g1).2.block_tables.length = g.block_tables.length
      have h3 : (k a g1).2.block_tables.length =
          g1.block_tables.length - 1 := (h2 a).2 b hb
      have h4 : g1.block_tables.length = g.block_tables.length + 1 :=
        h1.2 a rfl
      rw [h3, h4]
      omega
  | err e => exact ⟨h1.1, fun b hb => by cases hb⟩
  | panicked => exact ⟨h1.1, fun b hb => by cases hb⟩
  | nofuel => exact ⟨h1.1, fun b hb => by cases hb⟩

/-- If-statement lowering keeps the event trace and, on success, restores the
scope depth (one push before the then body, one pop at the end). -/
theorem build_if_statement_post (f : Nat)
    (ihCB : ∀ g cb, stmt_post g (build_code_block f g cb))
    (g : GenState) (c : Expr) (tb : CodeBlock) (eb : Option CodeBlock) :
    stmt_post g (build_if_statement (f + 1) g c tb eb) := by
  rcases hcur : g.cursor with _ | cur
  · simp only [build_if_statement, hcur]
    exact stmt_post_here g _
  · simp only [build_if_statement, hcur, create_three_blocks,
      GenState.insert_basic_block_after]
    refine andThen_stmt_post
      (stmt_post_of_expr_inv
        (expr_inv_trans ?_ ((expr_family_inv f).1 _ c))) fun cv => ?_
    · exact ⟨rfl, rfl, by simp [cond_br_count, cond_br_count_blocks_insert]⟩
    refine andThen_stmt_post
      (stmt_post_of_expr_inv (expr_inv_read _ cv)) fun v => ?_
    split
    · refine andThen_plus_drop
        (stmt_post_plus_start ?_ ?_ (ihCB _ tb)) ?_
      · simp
      · simp
      intro a
      cases eb with
      | none =>
          refine andThen_stmt_drop ⟨by simp, fun b hb => by simp⟩ ?_
          intro u
          exact ⟨by simp, fun b hb => by simp⟩
      | some el =>
          refine andThen_stmt_drop
            (stmt_post_pre ?_ ?_
              (andThen_stmt_post (ihCB _ el) fun flag2 =>
                ⟨by simp, fun b hb => by simp⟩)) ?_
          · simp
          · simp
          intro u
          exact ⟨by simp, fun b hb => by simp⟩
    · exact stmt_post_here _ _

/-- While-loop lowering keeps the event trace and, on success, restores the
scope depth. -/
theorem build_while_loop_post (f : Nat)
    (ihCB : ∀ g cb, stmt_post g (build_code_block f g cb))
    (g : GenState) (c : Option Expr) (b : CodeBlock) :
    stmt_post g (build_while_loop (f + 1) g c b) := by
  rcases hcur : g.cursor with _ | cur
  · simp only [build_while_loop, hcur]
    exact stmt_post_here g _
  · simp only [build_while_loop, hcur, create_three_blocks,
      GenState.insert_basic_block_after]
    cases c with
    | some ce =>
        refine andThen_plus_drop
          (stmt_post_plus_start ?_ ?_
            (andThen_stmt_post
              (stmt_post_of_expr_inv ((expr_family_inv f).1 _ ce))
              fun cv => andThen_stmt_post
                (stmt_post_of_expr_inv (expr_inv_read _ cv))
                fun v => ?_)) ?_
        · simp
        · simp
        · split
          · exact ⟨by simp, fun b hb => by simp⟩
          · exact stmt_post_here _ _
        · intro u
          refine andThen_stmt_drop (stmt_post_pre ?_ ?_ (ihCB _ b)) ?_
          · simp
          · simp
          intro u2
          exact ⟨by simp, fun b hb => by simp⟩
    | none =>
        refine andThen_plus_drop
          (stmt_post_plus_start ?_ ?_ (stmt_post_here _ _)) ?_
        · simp
        · simp
        intro u
        refine andThen_stmt_drop (stmt_post_pre ?_ ?_ (ihCB _ b)) ?_
        · simp
        · simp
        intro u2
        exact ⟨by simp, fun b hb => by simp⟩

/-- For-loop lowering keeps the event trace and, on success, restores the
scope depth (and does nothing at all when the condition statement is not an
expression statement). -/
theorem build_for_loop_post (f : Nat)
    (ihCB : ∀ g cb, stmt_post g (build_code_block f g cb))
    (g : GenState) (i c it : Statement) (b : CodeBlock) :
    stmt_post g (build_for_loop (f + 1) g i c it b) := by
  cases c with
  | expressions ce =>
      rcases hcur : g.cursor with _ | cur
      · simp only [build_for_loop, hcur]
        exact stmt_post_here g _
      · simp only [build_for_loop, hcur, create_three_blocks,
          GenState.insert_basic_block_after]
        refine andThen_plus_drop
          (stmt_post_plus_start ?_ ?_
            (stmt_post_of_local_inv (local_inv_build_for_init f _ i))) ?_
        · simp
        · simp
        intro u
        refine andThen_stmt_drop
          (stmt_post_pre ?_ ?_
            (stmt_post_of_expr_inv ((expr_family_inv f).1 _ ce))) ?_
        · simp
        · simp
        intro cv
        refine andThen_stmt_drop
          (stmt_post_of_expr_inv (expr_inv_read _ cv)) ?_
        intro v
        split
        · refine andThen_stmt_drop
            (stmt_post_pre ?_ ?_ (ihCB _ b)) ?_
          · simp
          · simp
          intro u2
          refine andThen_stmt_drop
            (stmt_post_of_expr_inv (expr_inv_build_for_step f _ it)) ?_
          intro u3
          exact ⟨by simp, fun b2 hb => by simp⟩
        · exact ⟨rfl, fun b2 hb => by cases hb⟩
  | ret e => exact stmt_post_here g _
  | ifStmt a b2 c2 => exact stmt_post_here g _
  | forLoop a b2 c2 d2 => exact stmt_post_here g _
  | variableDefinition v => exact stmt_post_here g _
  | voidStmt => exact stmt_post_here g _
  | whileLoop a b2 => exact stmt_post_here g _

/-- The statement-lowering family: the event trace is unchanged on every
path, and a successful lowering restores the scope-stack depth. -/
theorem stmt_family_post (f : Nat) :
    (∀ g stmts, stmt_post g (build_statements f g stmts)) ∧
    (∀ g cb, stmt_post g (build_code_block f g cb)) ∧
    (∀ g c tb eb, stmt_post g (build_if_statement f g c tb eb)) ∧
    (∀ g c b, stmt_post g (build_while_loop f g c b)) ∧
    (∀ g i c it b, stmt_post g (build_for_loop f g i c it b)) := by
  induction f with
  | zero =>
      exact ⟨fun g s => stmt_post_here g _, fun g cb => stmt_post_here g _,
        fun g c tb eb => stmt_post_here g _, fun g c b => stmt_post_here g _,
        fun g i c it b => stmt_post_here g _⟩
  | succ f ih =>
      obtain ⟨ihStmts, ihCB, ihIf, ihWhile, ihFor⟩ := ih
      have exprE := (expr_family_inv f).1
      refine ⟨?_, ?_, build_if_statement_post f ihCB,
        build_while_loop_post f ihCB, build_for_loop_post f ihCB⟩
      · intro g stmts
        cases stmts with
        | nil => exact stmt_post_here g _
        | cons s rest =>
            cases s with
            | expressions e =>
                exact andThen_stmt_post (stmt_post_of_expr_inv (exprE g e))
                  fun a => ihStmts _ rest
            | ret e =>
                refine andThen_stmt_post (stmt_post_of_expr_inv (exprE g e))
                  fun v => ?_
                refine andThen_stmt_post
                  (stmt_post_of_expr_inv (expr_inv_build_return _ v))
                  fun u => stmt_post_here _ _
            | ifStmt c tb eb =>
                exact andThen_stmt_post (ihIf g c tb eb)
                  fun u => ihStmts _ rest
            | forLoop i c it b =>
                exact andThen_stmt_post (ihFor g i c it b)
                  fun u => ihStmts _ rest
            | variableDefinition v =>
                exact andThen_stmt_post
                  (stmt_post_of_local_inv
                    (local_inv_build_local_variable_definition f g v))
                  fun u => ihStmts _ rest
            | voidStmt => exact ihStmts g rest
            | whileLoop c b =>
                exact andThen_stmt_post (ihWhile g c b)
                  fun u => ihStmts _ rest
      · intro g cb
        exact ihStmts g cb.statements

/-! ### Preservation machinery for the driver passes -/

/-- Pass-level post-condition: the pass only appends events satisfying P, and
a successful pass preserves the scope-stack depth. -/
def pass_post {α : Type} (P : Event → Bool) (g : GenState)
    (r : Res α × GenState) : Prop :=
  (∃ es, r.2.events = g.events ++ es ∧ ∀ e ∈ es, P e = true) ∧
    ∀ a, r.1 = .ok a → r.2.block_tables.length = g.block_tables.length

theorem pass_post_here {α : Type} (P : Event → Bool) (g : GenState)
    (r : Res α) : pass_post P g (r, g) :=
  ⟨⟨[], by simp, by simp⟩, fun a _ => rfl⟩

theorem pass_post_of_stmt_post {α : Type} {P : Event → Bool} {g : GenState}
    {r : Res α × GenState} (h : stmt_post g r) : pass_post P g r :=
  ⟨⟨[], by simp [h.1], by simp⟩, h.2⟩

theorem andThen_pass {α β : Type} {P : Event → Bool} {g : GenState}
    {r : Res α × GenState} {k : α → GenState → Res β × GenState}
    (h1 : pass_post P g r) (h2 : ∀ a, pass_post P r.2 (k a r.2)) :
    pass_post P g (andThen r k) := by
  obtain ⟨res, g1⟩ := r
  cases res with
  | ok a =>
      have h2a : pass_post P g1 (k a g1) := h2 a
      obtain ⟨⟨es1, he1, hp1⟩, hd1⟩ := h1
      obtain ⟨⟨es2, he2, hp2⟩, hd2⟩ := h2a
      have he1' : g1.events = g.events ++ es1 := he1
      have hd1' : g1.block_tables.length = g.block_tables.length :=
        hd1 a rfl
      refine ⟨⟨es1 ++ es2, ?_, ?_⟩, fun b hb => ?_⟩
      · show (k a g1).2.events = g.events ++ (es1 ++ es2)
        rw [he2, he1', List.append_assoc]
      · intro e he
        rcases List.mem_append.mp he with h | h
        · exact hp1 e h
        · exact hp2 e h
      · show (k a g1).2.block_tables.length = g.block_tables.length
        rw [hd2 b hb, hd1']
  | err e => exact ⟨h1.1, fun b hb => by cases hb⟩
  | panicked => exact ⟨h1.1, fun b hb => by cases hb⟩
  | nofuel => exact ⟨h1.1, fun b hb => by cases hb⟩

theorem pass_post_mono {α : Type} {P Q : Event → Bool}
    (hPQ : ∀ e, P e = true → Q e = true) {g : GenState}
    {r : Res α × GenState} (h : pass_post P g r) : pass_post Q g r := by
  obtain ⟨⟨es, he, hp⟩, hd⟩ := h
  exact ⟨⟨es, he, fun e hme => hPQ e (hp e hme)⟩, hd⟩

theorem insert_var_bottom_length (n : String) (p : LEPointerValue) :
    ∀ ts ts', insert_var_bottom n p ts = .ok ts' → ts'.length = ts.length := by
  intro ts
  induction ts with
  | nil => intro ts' h; cases h
  | cons t rest ih =>
      cases rest with
      | nil =>
          intro ts' h
          unfold insert_var_bottom at h
          split at h
          · cases h
          · cases h
            simp
      | cons u rest2 =>
          intro ts' h
          unfold insert_var_bottom at h
          rcases hrec : insert_var_bottom n p (u :: rest2) with ts2 | e2
          · rw [hrec] at h
            cases h
            have h2 := ih ts2 hrec
            simp [h2]
          · rw [hrec] at h; cases h
          · rw [hrec] at h; cases h
          · rw [hrec] at h; cases h

theorem pass_insert_global_type (g : GenState) (n : String)
    (fields : StructFields) :
    pass_post Event.is_decl_struct g (insert_global_type g n fields) := by
  unfold insert_global_type
  split
  · exact pass_post_here _ _ _
  · exact ⟨⟨[.declStruct n], by simp, by simp [Event.is_decl_struct]⟩,
      fun a _ => rfl⟩

theorem pass_insert_global_function (g : GenState) (n : String)
    (fs : FunctionSym) :
    pass_post Event.is_decl_function g (insert_global_function g n fs) := by
  unfold insert_global_function
  split
  · exact pass_post_here _ _ _
  · exact ⟨⟨[.declFunction n], by simp, by simp [Event.is_decl_function]⟩,
      fun a _ => rfl⟩

theorem pass_create_global_variable (g : GenState) (n : String)
    (v : ExpressionValue) :
    pass_post Event.is_emit_global g (create_global_variable g n v) := by
  unfold create_global_variable
  split
  · split
    · simp only [GenState.fresh_reg]
      split
      · rename_i tables htab
        refine ⟨⟨[.emitGlobal n], by simp, by simp [Event.is_emit_global]⟩,
          fun a _ => ?_⟩
        have htab' : insert_var_bottom n _ g.block_tables = .ok tables := htab
        exact insert_var_bottom_length _ _ _ _ htab'
      · exact pass_post_here _ _ _
      · exact pass_post_here _ _ _
      · exact pass_post_here _ _ _
    · exact pass_post_here _ _ _
  · exact pass_post_here _ _ _

theorem pass_create_global_variable_with_exact_type (g : GenState)
    (n : String) (v : ExpressionValue) (ty : LEType) :
    pass_post Event.is_emit_global g
      (create_global_variable_with_exact_type g n v ty) := by
  unfold create_global_variable_with_exact_type
  split
  · split
    · split
      · simp only [GenState.fresh_reg]
        split
        · rename_i tables htab
          refine ⟨⟨[.emitGlobal n], by simp, by simp [Event.is_emit_global]⟩,
            fun a _ => ?_⟩
          have htab' : insert_var_bottom n _ g.block_tables = .ok tables := htab
          exact insert_var_bottom_length _ _ _ _ htab'
        · exact pass_post_here _ _ _
        · exact pass_post_here _ _ _
        · exact pass_post_here _ _ _
      · exact pass_post_here _ _ _
    · exact pass_post_here _ _ _
  · exact pass_post_here _ _ _

theorem pass_build_function_prototype (g : GenState)
    (p : FunctionPrototype) :
    pass_post Event.is_decl_function g (build_function_prototype g p) := by
  unfold build_function_prototype
  split
  · split
    · simp only [GenState.fresh_reg]
      refine andThen_pass ?_ fun u => pass_post_here _ _ _
      exact pass_insert_global_function _ _ _
    · split
      · simp only [GenState.fresh_reg]
        refine andThen_pass ?_ fun u => pass_post_here _ _ _
        exact pass_insert_global_function _ _ _
      · exact pass_post_here _ _ _
      · exact pass_post_here _ _ _
      · exact pass_post_here _ _ _
  · exact pass_post_here _ _ _
  · exact pass_post_here _ _ _
  · exact pass_post_here _ _ _

theorem expr_inv_build_return_block (g : GenState) (rb : Nat)
    (rv : Option LEPointerValue) :
    expr_inv g (build_return_block g rb rv).2 := by
  unfold build_return_block
  cases rv with
  | some p =>
      exact andThen_expr_inv (expr_inv_build_load _ p) fun v =>
        expr_inv_emit rfl
  | none => exact expr_inv_emit rfl

theorem local_inv_cg_create_local_variable (g : GenState) (n : String)
    (t : LEType) (iv : ExpressionValue) :
    local_inv g (cg_create_local_variable g n t iv).2 := by
  unfold cg_create_local_variable
  split
  · exact local_inv_refl g
  · split
    · exact local_inv_refl g
    · exact andThen_local_inv (local_inv_builder_create_local_variable _ _ _)
        fun p => local_inv_refl _

theorem local_inv_bind_parameters :
    ∀ (g : GenState) (l : List (String × LEType)),
      local_inv g (bind_parameters g l).2 := by
  intro g l
  induction l generalizing g with
  | nil => exact local_inv_refl g
  | cons p rest ih =>
      obtain ⟨n, t⟩ := p
      simp only [bind_parameters, GenState.fresh_reg]
      exact andThen_local_inv (local_inv_cg_create_local_variable _ _ _ _)
        fun q => ih _

@[simp] theorem set_current_context_events (g : GenState) (e : Nat)
    (rv : Option LEPointerValue) (rb : Nat) :
    (set_current_context g e rv rb).events = g.events := rfl

@[simp] theorem set_current_context_block_tables (g : GenState) (e : Nat)
    (rv : Option LEPointerValue) (rb : Nat) :
    (set_current_context g e rv rb).block_tables = g.block_tables := rfl

theorem pass_build_function (fuel : Nat) (g : GenState)
    (fn : FunctionDefinition) :
    pass_post Event.is_decl_function g (build_function fuel g fn) := by
  unfold build_function
  refine andThen_pass (pass_build_function_prototype g fn.prototype)
    fun fv => ?_
  refine pass_post_of_stmt_post ?_
  simp only [GenState.append_basic_block, build_alloca_without_initialize,
    GenState.fresh_reg]
  rcases hrt : fv.return_type with _ | rt <;> simp only [hrt]
  · -- void function
    refine andThen_stmt_post
      (stmt_post_pre ?_ ?_
        (stmt_post_of_expr_inv (expr_inv_build_return_block _ _ _)))
      fun u => ?_
    · simp
    · simp
    refine andThen_plus_drop
      (stmt_post_plus_start ?_ ?_
        (stmt_post_of_local_inv (local_inv_bind_parameters _ _))) ?_
    · simp
    · simp
    intro u2
    refine andThen_stmt_drop ((stmt_family_post fuel).2.1 _ _) ?_
    intro flag
    exact ⟨by simp, fun b hb => by simp⟩
  · -- non-void function: entry alloca, return slot, return block
    refine andThen_stmt_post
      (stmt_post_pre ?_ ?_
        (stmt_post_of_expr_inv (expr_inv_build_return_block _ _ _)))
      fun u => ?_
    · simp
    · simp
    refine andThen_plus_drop
      (stmt_post_plus_start ?_ ?_
        (stmt_post_of_local_inv (local_inv_bind_parameters _ _))) ?_
    · simp
    · simp
    intro u2
    refine andThen_stmt_drop ((stmt_family_post fuel).2.1 _ _) ?_
    intro flag
    exact ⟨by simp, fun b hb => by simp⟩

theorem pass_generate_extern_functions :
    ∀ (g : GenState) (l : List FunctionPrototype),
      pass_post Event.is_decl_function g (generate_extern_functions g l) := by
  intro g l
  induction l generalizing g with
  | nil => exact pass_post_here _ _ _
  | cons p rest ih =>
      exact andThen_pass (pass_build_function_prototype g p) fun u => ih _

theorem pass_generate_function_definitions (fuel : Nat) :
    ∀ (g : GenState) (l : List FunctionDefinition),
      pass_post Event.is_decl_function g
        (generate_function_definitions fuel g l) := by
  intro g l
  induction l generalizing g with
  | nil => exact pass_post_here _ _ _
  | cons fd rest ih =>
      exact andThen_pass (pass_build_function fuel g fd) fun u => ih _

theorem pass_generate_all_functions (fuel : Nat) (g : GenState) (ast : Ast) :
    pass_post Event.is_decl_function g (generate_all_functions fuel g ast) :=
  andThen_pass (pass_generate_extern_functions g ast.extern_functions)
    fun u => pass_generate_function_definitions fuel _ ast.function_definitions

theorem pass_generate_global_variable (fuel : Nat) (g : GenState)
    (v : Variable) :
    pass_post Event.is_emit_global g (generate_global_variable fuel g v) := by
  unfold generate_global_variable
  refine andThen_pass
    (pass_post_of_stmt_post
      (stmt_post_of_expr_inv ((expr_family_inv fuel).1 g v.value)))
    fun ev => ?_
  split
  · split
    · exact andThen_pass (pass_create_global_variable_with_exact_type _ _ _ _)
        fun u => pass_post_here _ _ _
    · exact pass_post_here _ _ _
    · exact pass_post_here _ _ _
    · exact pass_post_here _ _ _
  · exact andThen_pass (pass_create_global_variable _ _ _)
      fun u => pass_post_here _ _ _

theorem pass_generate_all_global_variables (fuel : Nat) :
    ∀ (g : GenState) (l : List Variable),
      pass_post Event.is_emit_global g
        (generate_all_global_variables fuel g l) := by
  intro g l
  induction l generalizing g with
  | nil => exact pass_post_here _ _ _
  | cons v rest ih =>
      exact andThen_pass (pass_generate_global_variable fuel g v)
        fun u => ih _

theorem pass_generate_all_global_structures :
    ∀ (g : GenState) (l : List Structure),
      pass_post Event.is_decl_struct g
        (generate_all_global_structures g l) := by
  intro g l
  induction l generalizing g with
  | nil => exact pass_post_here _ _ _
  | cons st rest ih =>
      simp only [generate_all_global_structures]
      split
      · exact andThen_pass (pass_insert_global_type _ _ _) fun u => ih _
      · exact pass_post_here _ _ _
      · exact pass_post_here _ _ _
      · exact pass_post_here _ _ _

/-! ### Claim C1 -/

/-- C1 (counterexample): the claim states that compile first declares all
record types and then emits all global variables, so that every record type
is declared before any global initializer is lowered.  The code does the
opposite: on a unit with one global and one record declaration the emission
events are [emitGlobal, declStruct] in that order, and a global whose
initializer names the unit's own record type fails with TypeNotFound because
the record is not yet declared when the initializer is lowered. -/
theorem C1_counterexample :
    (compile 20 driver_state ast_global_and_struct).1 = .ok () ∧
    (compile 20 driver_state ast_global_and_struct).2.events =
      [.emitGlobal "g", .declStruct "S"] ∧
    (compile 20 driver_state ast_record_global).1 =
      .err (.typeNotFound "S") :=
  ⟨rfl, rfl, rfl⟩

/-- C1 (amended): compile performs its passes in the order: first emit all
global variables, then declare all record types, then emit all extern
prototypes and function definitions — so record types are declared only
after the global variable initializers have been lowered.  In the event
trace: any compile call appends a block of emitGlobal events, then a block
of declStruct events, then a block of declFunction events. -/
theorem C1_pass_order (fuel : Nat) (g : GenState) (ast : Ast) (r : Res Unit)
    (g' : GenState) (hc : compile fuel g ast = (r, g')) :
    ∃ e1 e2 e3, g'.events = g.events ++ (e1 ++ e2 ++ e3) ∧
      (∀ e ∈ e1, e.is_emit_global = true) ∧
      (∀ e ∈ e2, e.is_decl_struct = true) ∧
      (∀ e ∈ e3, e.is_decl_function = true) := by
  unfold compile at hc
  rcases h1 : generate_all_global_variables fuel g ast.globals_variables
    with ⟨r1, g1⟩
  have p1 := pass_generate_all_global_variables fuel g ast.globals_variables
  rw [h1] at p1 hc
  obtain ⟨⟨es1, he1x, hp1⟩, _⟩ := p1
  have he1 : g1.events = g.events ++ es1 := he1x
  cases r1 with
  | ok u1 =>
      simp only [andThen] at hc
      rcases h2 : generate_all_global_structures g1 ast.globals_structures
        with ⟨r2, g2⟩
      have p2 := pass_generate_all_global_structures g1 ast.globals_structures
      rw [h2] at p2 hc
      obtain ⟨⟨es2, he2x, hp2⟩, _⟩ := p2
      have he2 : g2.events = g1.events ++ es2 := he2x
      cases r2 with
      | ok u2 =>
          simp only [andThen] at hc
          rcases h3 : generate_all_functions fuel g2 ast with ⟨r3, g3⟩
          have p3 := pass_generate_all_functions fuel g2 ast
          rw [h3] at p3 hc
          obtain ⟨⟨es3, he3x, hp3⟩, _⟩ := p3
          have he3 : g3.events = g2.events ++ es3 := he3x
          cases r3 with
          | ok u3 =>
              simp only [andThen] at hc
              cases hc
              exact ⟨es1, es2, es3,
                by rw [he3, he2, he1]; simp, hp1, hp2, hp3⟩
          | err e =>
              simp only [andThen] at hc
              cases hc
              exact ⟨es1, es2, es3,
                by rw [he3, he2, he1]; simp, hp1, hp2, hp3⟩
          | panicked =>
              simp only [andThen] at hc
              cases hc
              exact ⟨es1, es2, es3,
                by rw [he3, he2, he1]; simp, hp1, hp2, hp3⟩
          | nofuel =>
              simp only [andThen] at hc
              cases hc
              exact ⟨es1, es2, es3,
                by rw [he3, he2, he1]; simp, hp1, hp2, hp3⟩
      | err e =>
          simp only [andThen] at hc
          cases hc
          exact ⟨es1, es2, [],
            by rw [he2, he1]; simp, hp1, hp2, by simp⟩
      | panicked =>
          simp only [andThen] at hc
          cases hc
          exact ⟨es1, es2, [],
            by rw [he2, he1]; simp, hp1, hp2, by simp⟩
      | nofuel =>
          simp only [andThen] at hc
          cases hc
          exact ⟨es1, es2, [],
            by rw [he2, he1]; simp, hp1, hp2, by simp⟩
  | err e =>
      simp only [andThen] at hc
      cases hc
      exact ⟨es1, [], [], by rw [he1]; simp, hp1, by simp, by simp⟩
  | panicked =>
      simp only [andThen] at hc
      cases hc
      exact ⟨es1, [], [], by rw [he1]; simp, hp1, by simp, by simp⟩
  | nofuel =>
      simp only [andThen] at hc
      cases hc
      exact ⟨es1, [], [], by rw [he1]; simp, hp1, by simp, by simp⟩

/-- Witness: C1_pass_order applied to a concrete compile run. -/
theorem C1_pass_order_witness :
    ∃ e1 e2 e3,
      (compile 20 driver_state ast_global_and_struct).2.events =
        driver_state.events ++ (e1 ++ e2 ++ e3) ∧
      (∀ e ∈ e1, e.is_emit_global = true) ∧
      (∀ e ∈ e2, e.is_decl_struct = true) ∧
      (∀ e ∈ e3, e.is_decl_function = true) :=
  C1_pass_order 20 driver_state ast_global_and_struct
    (compile 20 driver_state ast_global_and_struct).1
    (compile 20 driver_state ast_global_and_struct).2 rfl

/-! ### Claim C2 -/

/-- C2: the claim (and the spec's edge policy (a)) states that for a loop
body ending in a return no back-edge branch is emitted after that return and
that a terminated block never receives another branch.  The code discards
build_code_block's terminated flag in build_while_loop (generator.rs line
355) and emits the back-edge unconditionally (line 356): lowering
`while (true) { return 0; }` succeeds and leaves the body block (id 2) with
the return's branch to the return block (id 9) FOLLOWED by the back-edge
branch to the cond block (id 1) — two terminators in one block. -/
theorem C2_back_edge_after_return :
    (build_while_loop 20 base_state (some (.identifier "true"))
        ⟨[.ret (.numberLiteral (.integer 0))]⟩).1 = .ok () ∧
    block_instrs
      (build_while_loop 20 base_state (some (.identifier "true"))
        ⟨[.ret (.numberLiteral (.integer 0))]⟩).2 2 = [.br 9, .br 1] :=
  ⟨rfl, rfl⟩

/-! ### Claim C3 -/

/-- C3 (counterexample): the claim states that the then body and the else
body are lowered under separately pushed scopes, so a local inserted while
lowering the then body is not found by lookup while lowering the else body.
In the code both bodies share the single scope pushed at generator.rs line
373: lowering `if (true) { x = 1 (definition); } else { x; }` succeeds —
the else body's lookup of x finds the then body's local — whereas with an
empty then body the very same else body fails with NotFound. -/
theorem C3_counterexample :
    (build_if_statement 20 base_state (.identifier "true")
        ⟨[.variableDefinition ⟨"x", none, .numberLiteral (.integer 1)⟩]⟩
        (some ⟨[.expressions (.identifier "x")]⟩)).1 = .ok () ∧
    (build_if_statement 20 base_state (.identifier "true")
        ⟨[]⟩
        (some ⟨[.expressions (.identifier "x")]⟩)).1 = .err (.notFound "x") :=
  ⟨rfl, rfl⟩

/-! ### Inversion helpers: what a successful local-variable creation
guarantees about the scope stack -/

theorem andThen_ok_inv {α β : Type} {r : Res α × GenState}
    {k : α → GenState → Res β × GenState} {b : β} {g' : GenState}
    (h : andThen r k = (.ok b, g')) :
    ∃ a g1, r = (.ok a, g1) ∧ k a g1 = (.ok b, g') := by
  obtain ⟨res, g1⟩ := r
  cases res with
  | ok a => exact ⟨a, g1, rfl, h⟩
  | err e => exact Res.noConfusion (congrArg Prod.fst h)
  | panicked => exact Res.noConfusion (congrArg Prod.fst h)
  | nofuel => exact Res.noConfusion (congrArg Prod.fst h)

theorem find_append_self {t : List (String × LEPointerValue)} {n : String}
    (h : t.find? (fun q => q.1 == n) = none) (p : LEPointerValue) :
    (t ++ [(n, p)]).find? (fun q => q.1 == n) = some (n, p) := by
  induction t with
  | nil => simp [List.find?]
  | cons a rest ih =>
      rw [List.cons_append]
      cases ha : (a.1 == n) with
      | true =>
          simp only [List.find?, ha] at h
          cases h
      | false =>
          simp only [List.find?, ha] at h ⊢
          exact ih h

theorem insert_local_lookup {g : GenState} {n : String} {p : LEPointerValue}
    {u : Unit} {g' : GenState} (h : g.insert_local n p = (.ok u, g')) :
    lookup_var g'.block_tables n = some p := by
  unfold GenState.insert_local at h
  split at h
  · exact Res.noConfusion (congrArg Prod.fst h)
  · rename_i t rest heq
    split at h
    · exact Res.noConfusion (congrArg Prod.fst h)
    · rename_i hfind
      cases h
      simp only [lookup_var]
      rw [find_append_self (Option.not_isSome_iff_eq_none.mp hfind) p]

theorem builder_create_local_variable_lookup {g : GenState} {n : String}
    {init : ExpressionValue} {p : LEPointerValue} {g' : GenState}
    (h : builder_create_local_variable g n init = (.ok p, g')) :
    lookup_var g'.block_tables n = some p := by
  unfold builder_create_local_variable at h
  obtain ⟨v, g1, hread, h⟩ := andThen_ok_inv h
  obtain ⟨u2, g2, hins, h2⟩ := andThen_ok_inv h
  cases h2
  exact insert_local_lookup hins

theorem builder_create_exact_lookup {g : GenState} {n : String}
    {init : ExpressionValue} {d : TypeDeclarator} {p : LEPointerValue}
    {g' : GenState}
    (h : builder_create_local_variable_with_exact_type g n init d =
      (.ok p, g')) :
    lookup_var g'.block_tables n = some p := by
  unfold builder_create_local_variable_with_exact_type at h
  cases ht : get_generic_type g d with
  | ok ty =>
      rw [ht] at h
      obtain ⟨v, g1, hread, h⟩ := andThen_ok_inv h
      simp only [] at h
      by_cases hvt : v.typeOf = ty
      · rw [if_pos hvt] at h
        obtain ⟨u2, g2, hins, h2⟩ := andThen_ok_inv h
        cases h2
        exact insert_local_lookup hins
      · rw [if_neg hvt] at h
        rcases hret : retype_literal v ty with _ | v2
        · rw [hret] at h
          exact Res.noConfusion (congrArg Prod.fst h)
        · rw [hret] at h
          obtain ⟨u2, g2, hins, h2⟩ := andThen_ok_inv h
          cases h2
          exact insert_local_lookup hins
  | err e =>
      rw [ht] at h
      exact Res.noConfusion (congrArg Prod.fst h)
  | panicked =>
      rw [ht] at h
      exact Res.noConfusion (congrArg Prod.fst h)
  | nofuel =>
      rw [ht] at h
      exact Res.noConfusion (congrArg Prod.fst h)

theorem build_local_variable_definition_lookup {f : Nat} {g : GenState}
    {v : Variable} {u : ExpressionValue} {g' : GenState}
    (h : build_local_variable_definition f g v = (.ok u, g')) :
    ∃ p, lookup_var g'.block_tables v.name = some p := by
  cases f with
  | zero => exact Res.noConfusion (congrArg Prod.fst h)
  | succ f =>
      unfold build_local_variable_definition at h
      obtain ⟨iv, g1, hinit, h⟩ := andThen_ok_inv h
      split at h
      · obtain ⟨p, g2, hcreate, h2⟩ := andThen_ok_inv h
        cases h2
        exact ⟨p, builder_create_exact_lookup hcreate⟩
      · obtain ⟨p, g2, hcreate, h2⟩ := andThen_ok_inv h
        cases h2
        exact ⟨p, builder_create_local_variable_lookup hcreate⟩

/-- C3 (amended): when lowering an if statement with an else body, a single
scope is pushed before the then body (generator.rs line 373) and popped only
at the very end (line 388); the then and else bodies share it, so a local
variable inserted while lowering the then body IS visible (found by lookup)
while lowering the else body — the whole statement lowers successfully when
the else body reads the then body's local. -/
theorem C3_shared_scope (f : Nat) (g : GenState) (cur : Nat) (c : Expr)
    (name : String) (initE : Expr) (cv : ExpressionValue) (v : LEValue)
    (uv : ExpressionValue) (g1 g2 g3 g4 : GenState) (tb eb mb : Nat)
    (hcur : g.cursor = some cur)
    (hblocks : create_three_blocks g cur = ((tb, eb, mb), g1))
    (hc : build_expression (f + 3) g1 c = (.ok cv, g2))
    (hread : read_expression_value g2 cv = (.ok v, g3))
    (hbool : v.is_bool = true)
    (hvar : build_local_variable_definition (f + 1)
        (push_block_table ((g3.emit (.condBr v tb eb)).position_at_end tb))
        ⟨name, none, initE⟩ = (.ok uv, g4)) :
    (∃ p, lookup_var g4.block_tables name = some p) ∧
    (build_if_statement (f + 4) g c
        ⟨[.variableDefinition ⟨name, none, initE⟩]⟩
        (some ⟨[.expressions (.identifier name)]⟩)).1 = .ok () := by
  obtain ⟨p, hp⟩ := build_local_variable_definition_lookup hvar
  have hp' : lookup_var g4.block_tables name = some p := hp
  refine ⟨⟨p, hp'⟩, ?_⟩
  have hcb' : build_statements (f + 2)
      (push_block_table ((g3.emit (.condBr v tb eb)).position_at_end tb))
      [.variableDefinition ⟨name, none, initE⟩] = (.ok false, g4) := by
    simp only [build_statements]
    rw [hvar]
    simp only [andThen]
  have hcb : build_code_block (f + 3)
      (push_block_table ((g3.emit (.condBr v tb eb)).position_at_end tb))
      ⟨[.variableDefinition ⟨name, none, initE⟩]⟩ = (.ok false, g4) := hcb'
  have hidok : ∃ ev, build_identifier_expression
      ((g4.emit (.br mb)).position_at_end eb) name = (.ok ev,
        (g4.emit (.br mb)).position_at_end eb) := by
    unfold build_identifier_expression
    by_cases h1 : name = "true"
    · rw [if_pos h1]
      exact ⟨_, rfl⟩
    · rw [if_neg h1]
      by_cases h2 : name = "false"
      · rw [if_pos h2]
        exact ⟨_, rfl⟩
      · rw [if_neg h2]
        unfold get_variable
        have hlk : lookup_var
            (((g4.emit (.br mb)).position_at_end eb)).block_tables name =
            some p := by
          rw [position_block_tables, emit_block_tables]
          exact hp'
        rw [hlk]
        exact ⟨_, rfl⟩
  obtain ⟨ev, hid⟩ := hidok
  have hel' : build_statements (f + 2) ((g4.emit (.br mb)).position_at_end eb)
      [.expressions (.identifier name)] =
      (.ok false, (g4.emit (.br mb)).position_at_end eb) := by
    simp only [build_statements]
    have hid' : build_expression (f + 1)
        ((g4.emit (.br mb)).position_at_end eb) (.identifier name) =
        (.ok ev, (g4.emit (.br mb)).position_at_end eb) := hid
    rw [hid']
    simp only [andThen]
  have hel : build_code_block (f + 3) ((g4.emit (.br mb)).position_at_end eb)
      ⟨[.expressions (.identifier name)]⟩ =
      (.ok false, (g4.emit (.br mb)).position_at_end eb) := hel'
  simp only [build_if_statement, hcur, hblocks]
  rw [hc]
  simp only [andThen]
  rw [hread]
  simp only [andThen, hbool, if_pos]
  rw [hcb]
  simp only [andThen, Bool.false_eq_true, if_false]
  rw [hel]

/-- The state in which the then body of the witness if-statement is lowered
(cond already emitted, then-block entered, one scope pushed). -/
def c3_inner_state : GenState :=
  push_block_table (((create_three_blocks base_state 0).2.emit
    (.condBr (.boolConst true) 1 2)).position_at_end 1)

/-- Witness: C3_shared_scope on the concrete statement
if (true) then x := 1 else read x. -/
theorem C3_shared_scope_witness :
    (∃ p, lookup_var (build_local_variable_definition 2 c3_inner_state
        ⟨"x", none, .numberLiteral (.integer 1)⟩).2.block_tables "x" =
        some p) ∧
    (build_if_statement 5 base_state (.identifier "true")
        ⟨[.variableDefinition ⟨"x", none, .numberLiteral (.integer 1)⟩]⟩
        (some ⟨[.expressions (.identifier "x")]⟩)).1 = .ok () :=
  C3_shared_scope 1 base_state 0 (.identifier "true") "x"
    (.numberLiteral (.integer 1)) (.right (.boolConst true))
    (.boolConst true) .unit
    (create_three_blocks base_state 0).2 (create_three_blocks base_state 0).2
    (create_three_blocks base_state 0).2
    (build_local_variable_definition 2 c3_inner_state
      ⟨"x", none, .numberLiteral (.integer 1)⟩).2
    1 2 3 rfl rfl rfl rfl rfl rfl

/-! ### Claim C4 -/

/-- C4 (counterexample): the claim states that lowering an assignment whose
left side is an l-value and whose right side reads to a value of the same
type yields the Unit expression result.  In the code the assignment arm
wraps build_assign's pointer in ExpressionValue::Left (generator.rs line
155): lowering `a = 1` with `a : i32` in scope yields the l-value of `a`,
not Unit. -/
theorem C4_counterexample :
    (build_expression 20 var_state
        (.binaryOperator .assign (.identifier "a")
          (.numberLiteral (.integer 1)))).1 =
      .ok (.left ⟨.integer 32 true, 100⟩) :=
  rfl

/-! ### Claim C5 -/

/-- C5 (counterexample): the claim states that a record initializer succeeds
only when the provided field names are exactly the declared field names (one
value per field) and that any missing or extra field fails with
TypeMismatched.  The code only compares the number of provided values with
the number of declared fields (generator.rs line 40): for
`struct P { x: i32; y: i32; }` the initializer `{x: 1, x: 2}` — field y
missing, field x duplicated — is accepted and produces a constant aggregate
from the two x-values. -/
theorem C5_counterexample :
    (build_structure_initializer 20 struct_state "P"
        [("x", .numberLiteral (.integer 1)),
         ("x", .numberLiteral (.integer 2))]).1 =
      .ok (.right (.structConst (.struct "P")
        [.intConst 32 true 1, .intConst 32 true 2])) :=
  rfl

/-! ### Claim C6 -/

/-- C6: the claim (and the spec's error taxonomy) states that a record
initializer naming a field not declared on the record type returns the
UnknownField error value rather than panicking.  The code unwraps
get_member_offset (generator.rs line 46), which is None for an unknown
name: for `struct P { x: i32; y: i32; }` the initializer `{x: 1, z: 2}`
panics instead of returning an error. -/
theorem C6_unknown_field_panics :
    (build_structure_initializer 20 struct_state "P"
        [("x", .numberLiteral (.integer 1)),
         ("z", .numberLiteral (.integer 2))]).1 = .panicked :=
  rfl

/-! ### Claim C10 -/

/-- C10: for every for loop whose condition statement is not an Expressions
statement, build_for_loop returns success while emitting no basic blocks and
no instructions at all — the state is returned exactly unchanged, so the
init statement, condition, step and body are silently dropped (the body of
generator.rs lines 308-333 sits under an if-let on the condition with no
else arm). -/
theorem C10_for_loop_drops (f : Nat) (g : GenState)
    (init cond it : Statement) (b : CodeBlock)
    (h : ∀ e, cond ≠ .expressions e) :
    build_for_loop (f + 1) g init cond it b = (.ok (), g) := by
  cases cond with
  | expressions e => exact absurd rfl (h e)
  | ret e => rfl
  | ifStmt a b2 c2 => rfl
  | forLoop a b2 c2 d2 => rfl
  | variableDefinition v => rfl
  | voidStmt => rfl
  | whileLoop a b2 => rfl

/-- Witness: C10_for_loop_drops on a concrete for loop whose condition slot
holds a Void statement. -/
theorem C10_for_loop_drops_witness :
    build_for_loop 20 base_state .voidStmt .voidStmt .voidStmt ⟨[]⟩ =
      (.ok (), base_state) :=
  C10_for_loop_drops 19 base_state .voidStmt .voidStmt .voidStmt ⟨[]⟩
    (fun e he => by cases he)

/-! ### Claims C4 and C5, amended -/

/-- C4 (amended): for every assignment whose left side lowers to an l-value
and whose right side reads to a value of the same type, lowering the
assignment yields an L-VALUE result — the pointer of the assigned location —
rather than Unit; consequently chained assignment a = b = c CAN be lowered
(second conjunct: a concrete chained assignment lowers successfully to the
l-value of a). -/
theorem C4_assign_yields_lvalue :
    (∀ f g l r p rv v g1 g2 g3,
      build_expression f g l = (.ok (.left p), g1) →
      build_expression f g1 r = (.ok rv, g2) →
      read_expression_value g2 rv = (.ok v, g3) →
      v.typeOf = p.pointee →
      build_expression (f + 2) g (.binaryOperator .assign l r) =
        (.ok (.left p), g3.emit (.store p.addr v))) ∧
    (build_expression 20 var_state
        (.binaryOperator .assign (.identifier "a")
          (.binaryOperator .assign (.identifier "b")
            (.numberLiteral (.integer 1))))).1 =
      .ok (.left ⟨.integer 32 true, 100⟩) := by
  constructor
  · intro f g l r p rv v g1 g2 g3 hl hr hv ht
    have e1 : build_expression (f + 2) g (.binaryOperator .assign l r) =
        andThen (build_expression f g l) fun left g =>
          andThen (build_expression f g r) fun right g =>
            andThen (build_assign g left right) fun q g =>
              (.ok (.left q), g) := rfl
    rw [e1, hl]
    simp only [andThen]
    rw [hr]
    simp only [andThen]
    unfold build_assign
    rw [hv]
    simp only [andThen, ht, if_pos]
  · rfl

/-- Witness: C4_assign_yields_lvalue applied to the concrete assignment
a = 1 with a : i32 in scope. -/
theorem C4_assign_yields_lvalue_witness :
    build_expression 12 var_state
        (.binaryOperator .assign (.identifier "a")
          (.numberLiteral (.integer 1))) =
      (.ok (.left ⟨.integer 32 true, 100⟩),
        var_state.emit (.store 100 (.intConst 32 true 1))) :=
  C4_assign_yields_lvalue.1 10 var_state (.identifier "a")
    (.numberLiteral (.integer 1)) ⟨.integer 32 true, 100⟩
    (.right (.intConst 32 true 1)) (.intConst 32 true 1)
    var_state var_state var_state rfl rfl rfl rfl

/-- C5 (amended): record initializer lowering checks only the COUNT of the
provided members against the count of declared fields — a count mismatch
fails with TypeMismatched, while matching counts are accepted with no
field-name set check: a duplicated declared name standing in for a missing
field is accepted (second conjunct). -/
theorem C5_field_count_check :
    (∀ f g sname n fields inits,
      get_generic_type g (.typeIdentifier sname) = .ok (.struct n) →
      get_struct_fields g n = some fields →
      fields.length ≠ inits.length →
      build_structure_initializer (f + 1) g sname inits =
        (.err (.typeMismatched (type_name (.struct n)) sname), g)) ∧
    (build_structure_initializer 20 struct_state "P"
        [("x", .numberLiteral (.integer 1)),
         ("x", .numberLiteral (.integer 2))]).1 =
      .ok (.right (.structConst (.struct "P")
        [.intConst 32 true 1, .intConst 32 true 2])) := by
  constructor
  · intro f g sname n fields inits hty hf hne
    simp only [build_structure_initializer, hty, hf]
    rw [if_pos hne]
  · rfl

/-- Witness: C5_field_count_check applied to a concrete initializer with one
member for a two-field record. -/
theorem C5_field_count_check_witness :
    build_structure_initializer 20 struct_state "P"
        [("x", .numberLiteral (.integer 1))] =
      (.err (.typeMismatched (type_name (.struct "P")) "P"), struct_state) :=
  C5_field_count_check.1 19 struct_state "P" "P"
    [("x", .integer 32 true), ("y", .integer 32 true)]
    [("x", .numberLiteral (.integer 1))] rfl rfl (by decide)

/-! ### Claim C8 -/

/-- C8 (counterexample): the claim states that the scope stack depth is
unchanged by lowering any single statement including when lowering returns
an error.  In build_while_loop the scope is pushed (generator.rs line 343)
before the condition is checked, and the error return at line 349 skips the
pop: lowering `while (1) {}` from a depth-1 state fails with TypeMismatched
and leaves the depth at 2. -/
theorem C8_counterexample :
    (build_while_loop 20 base_state (some (.numberLiteral (.integer 1)))
        ⟨[]⟩).1 = .err (.typeMismatched "" "") ∧
    scope_depth
      (build_while_loop 20 base_state (some (.numberLiteral (.integer 1)))
        ⟨[]⟩).2 = 2 ∧
    scope_depth base_state = 1 :=
  ⟨rfl, rfl, rfl⟩

/-- C8 (amended): the scope-stack depth is unchanged by SUCCESSFULLY
lowering any single statement (if, while and for included), and likewise
across a whole successful compile call.  When lowering returns an error the
depth may increase — a scope pushed before the error is not popped (see the
counterexample). -/
theorem C8_scope_depth :
    (∀ fuel g s b g', build_code_block fuel g ⟨[s]⟩ = (.ok b, g') →
      scope_depth g' = scope_depth g) ∧
    (∀ fuel g ast u g', compile fuel g ast = (.ok u, g') →
      scope_depth g' = scope_depth g) := by
  constructor
  · intro fuel g s b g' h
    have hp := (stmt_family_post fuel).2.1 g ⟨[s]⟩
    rw [h] at hp
    exact hp.2 b rfl
  · intro fuel g ast u g' h
    have hall : pass_post (fun _ => true) g (compile fuel g ast) := by
      unfold compile
      refine andThen_pass
        (pass_post_mono (fun e _ => rfl)
          (pass_generate_all_global_variables fuel g _)) fun u1 => ?_
      refine andThen_pass
        (pass_post_mono (fun e _ => rfl)
          (pass_generate_all_global_structures _ _)) fun u2 => ?_
      refine andThen_pass
        (pass_post_mono (fun e _ => rfl)
          (pass_generate_all_functions fuel _ ast)) fun u3 => ?_
      exact pass_post_here _ _ _
    rw [h] at hall
    exact hall.2 u rfl

/-- Witness: C8_scope_depth applied to a concrete statement and a concrete
compile run. -/
theorem C8_scope_depth_witness :
    scope_depth (build_code_block 10 base_state ⟨[.voidStmt]⟩).2 =
      scope_depth base_state ∧
    scope_depth (compile 20 driver_state ast_global_and_struct).2 =
      scope_depth driver_state :=
  ⟨C8_scope_depth.1 10 base_state .voidStmt false
      (build_code_block 10 base_state ⟨[.voidStmt]⟩).2 rfl,
   C8_scope_depth.2 20 driver_state ast_global_and_struct ()
      (compile 20 driver_state ast_global_and_struct).2 rfl⟩

/-! ### Claim C9 -/

/-- C9: for every if, while, or for statement whose condition expression
lowers and reads to a value of non-boolean type, lowering fails with
TypeMismatched (generator.rs lines 371, 349 and 323) and the conditional
branch for that condition is never emitted: the number of condBr
instructions in the final state equals the number in the starting state. -/
theorem C9_nonbool_condition (f : Nat) (g : GenState) (cur b0 b1 b2 : Nat)
    (g1 : GenState) (c : Expr) (thenB : CodeBlock) (elseB : Option CodeBlock)
    (body fbody : CodeBlock) (init iter : Statement)
    (cvI cvW cvF : ExpressionValue) (vI vW vF : LEValue)
    (gI2 gI3 gW2 gW3 gF2 gF4 gF5 : GenState)
    (hcur : g.cursor = some cur)
    (hblocks : create_three_blocks g cur = ((b0, b1, b2), g1))
    (hcI : build_expression f g1 c = (.ok cvI, gI2))
    (hreadI : read_expression_value gI2 cvI = (.ok vI, gI3))
    (hboolI : vI.is_bool = false)
    (hcW : build_expression f
        (push_block_table ((g1.emit (.br b0)).position_at_end b0)) c =
        (.ok cvW, gW2))
    (hreadW : read_expression_value gW2 cvW = (.ok vW, gW3))
    (hboolW : vW.is_bool = false)
    (hinit : build_for_init f (push_block_table g1) init = (.ok (), gF2))
    (hcF : build_expression f ((gF2.emit (.br b0)).position_at_end b0) c =
        (.ok cvF, gF4))
    (hreadF : read_expression_value gF4 cvF = (.ok vF, gF5))
    (hboolF : vF.is_bool = false) :
    (build_if_statement (f + 1) g c thenB elseB =
        (.err (.typeMismatched "" ""), gI3) ∧
      cond_br_count gI3 = cond_br_count g) ∧
    (build_while_loop (f + 1) g (some c) body =
        (.err (.typeMismatched "" ""), gW3) ∧
      cond_br_count gW3 = cond_br_count g) ∧
    (build_for_loop (f + 1) g init (.expressions c) iter fbody =
        (.err (.typeMismatched "" ""), gF5) ∧
      cond_br_count gF5 = cond_br_count g) := by
  have h1 := (expr_inv_create_three_blocks g cur).2.2
  rw [hblocks] at h1
  refine ⟨⟨?_, ?_⟩, ⟨?_, ?_⟩, ⟨?_, ?_⟩⟩
  · simp only [build_if_statement, hcur, hblocks]
    rw [hcI]
    simp only [andThen]
    rw [hreadI]
    simp only [andThen, hboolI, Bool.false_eq_true, if_false]
  · have h2 := ((expr_family_inv f).1 g1 c).2.2
    rw [hcI] at h2
    have h3 := (expr_inv_read gI2 cvI).2.2
    rw [hreadI] at h3
    exact h3.trans (h2.trans h1)
  · simp only [build_while_loop, hcur, hblocks]
    rw [hcW]
    simp only [andThen]
    rw [hreadW]
    simp only [andThen, hboolW, Bool.false_eq_true, if_false]
  · have hw : cond_br_count
        (push_block_table ((g1.emit (.br b0)).position_at_end b0)) =
        cond_br_count g1 := (@expr_inv_emit g1 (.br b0) rfl).2.2
    have h2 := ((expr_family_inv f).1
      (push_block_table ((g1.emit (.br b0)).position_at_end b0)) c).2.2
    rw [hcW] at h2
    have h3 := (expr_inv_read gW2 cvW).2.2
    rw [hreadW] at h3
    exact h3.trans (h2.trans (hw.trans h1))
  · simp only [build_for_loop, hcur, hblocks]
    rw [hinit]
    simp only [andThen]
    rw [hcF]
    simp only [andThen]
    rw [hreadF]
    simp only [andThen, hboolF, Bool.false_eq_true, if_false]
  · have h2 : cond_br_count gF2 = cond_br_count g1 := by
      have h2a := (local_inv_build_for_init f (push_block_table g1) init).2.2
      rw [hinit] at h2a
      exact h2a
    have h5 : cond_br_count ((gF2.emit (.br b0)).position_at_end b0) =
        cond_br_count gF2 := (@expr_inv_emit gF2 (.br b0) rfl).2.2
    have h3 := ((expr_family_inv f).1
      ((gF2.emit (.br b0)).position_at_end b0) c).2.2
    rw [hcF] at h3
    have h4 := (expr_inv_read gF4 cvF).2.2
    rw [hreadF] at h4
    exact h4.trans (h3.trans (h5.trans (h2.trans h1)))

/-- Witness: C9_nonbool_condition on the integer-literal condition 1 in all
three constructs, starting from base_state. -/
theorem C9_nonbool_condition_witness :
    (build_if_statement 3 base_state (.numberLiteral (.integer 1))
        ⟨[]⟩ none).1 = .err (.typeMismatched "" "") ∧
    (build_while_loop 3 base_state (some (.numberLiteral (.integer 1)))
        ⟨[]⟩).1 = .err (.typeMismatched "" "") ∧
    (build_for_loop 3 base_state .voidStmt
        (.expressions (.numberLiteral (.integer 1))) .voidStmt ⟨[]⟩).1 =
      .err (.typeMismatched "" "") := by
  obtain ⟨hI, hW, hF⟩ := C9_nonbool_condition 2 base_state 0 1 2 3
    (create_three_blocks base_state 0).2 (.numberLiteral (.integer 1))
    ⟨[]⟩ none ⟨[]⟩ ⟨[]⟩ .voidStmt .voidStmt
    (.right (.intConst 32 true 1)) (.right (.intConst 32 true 1))
    (.right (.intConst 32 true 1))
    (.intConst 32 true 1) (.intConst 32 true 1) (.intConst 32 true 1)
    (create_three_blocks base_state 0).2 (create_three_blocks base_state 0).2
    (push_block_table (((create_three_blocks base_state 0).2.emit
      (.br 1)).position_at_end 1))
    (push_block_table (((create_three_blocks base_state 0).2.emit
      (.br 1)).position_at_end 1))
    (push_block_table (create_three_blocks base_state 0).2)
    (((push_block_table (create_three_blocks base_state 0).2).emit
      (.br 1)).position_at_end 1)
    (((push_block_table (create_three_blocks base_state 0).2).emit
      (.br 1)).position_at_end 1)
    rfl rfl rfl rfl rfl rfl rfl rfl rfl rfl rfl rfl
  exact ⟨congrArg Prod.fst hI.1, congrArg Prod.fst hW.1,
    congrArg Prod.fst hF.1⟩

/-! ### Claim C7 -/

/-- Expressions whose lowering is a state-independent constant: the number
literals (generator.rs lines 28, const_i32/const_f64). -/
def is_const_lit : Expr → Bool
  | .numberLiteral _ => true
  | _ => false

/-- The constant an is_const_lit expression lowers to. -/
def const_lit_value : Expr → LEValue
  | .numberLiteral (.integer i) => .intConst 32 true i
  | .numberLiteral (.float b) => .floatConst 64 b
  | _ => .boolConst false

/-- The underlying constant of a right-hand expression value. -/
def right_value : ExpressionValue → LEValue
  | .right v => v
  | _ => .boolConst false

/-- The (declaration-index, value) pairs the member loop produces for a list
of constant-literal member initializers. -/
def init_pairs (fields : StructFields) (vs : List (String × Expr)) :
    List (Nat × ExpressionValue) :=
  vs.map fun p =>
    ((get_member_offset fields p.1).getD 0, .right (const_lit_value p.2))

theorem build_expression_const_lit (f : Nat) (g : GenState) (e : Expr)
    (hc : is_const_lit e = true) (hf : 0 < f) :
    build_expression f g e = (.ok (.right (const_lit_value e)), g) := by
  cases f with
  | zero => exact absurd hf (Nat.lt_irrefl 0)
  | succ f =>
      cases e <;> simp [is_const_lit] at hc
      case numberLiteral nb => cases nb <;> rfl

theorem build_struct_init_values_const (fields : StructFields) :
    ∀ (vs : List (String × Expr)) (f : Nat) (g : GenState),
      (∀ p ∈ vs, is_const_lit p.2 = true) →
      (∀ p ∈ vs, (get_member_offset fields p.1).isSome = true) →
      vs.length < f →
      build_struct_init_values f g fields vs =
        (.ok (init_pairs fields vs), g) := by
  intro vs
  induction vs with
  | nil =>
      intro f g _ _ hf
      cases f with
      | zero => exact absurd hf (Nat.lt_irrefl 0)
      | succ f => rfl
  | cons p rest ih =>
      intro f g hc hn hf
      obtain ⟨name, e⟩ := p
      cases f with
      | zero => exact absurd hf (Nat.not_lt_zero _)
      | succ f =>
          simp only [build_struct_init_values]
          rw [build_expression_const_lit f g e (hc ⟨name, e⟩ (by simp))
            (by simp only [List.length_cons] at hf; omega)]
          simp only [andThen]
          obtain ⟨off, hoff⟩ :=
            Option.isSome_iff_exists.mp (hn ⟨name, e⟩ (by simp))
          rw [hoff]
          rw [ih f g (fun q hq => hc q (by simp [hq]))
            (fun q hq => hn q (by simp [hq]))
            (by simp only [List.length_cons] at hf; omega)]
          simp only [andThen]
          simp [init_pairs, hoff]

theorem read_values_unwrap_rights (g : GenState) :
    ∀ l : List (Nat × ExpressionValue),
      (∀ p ∈ l, ∃ v, p.2 = .right v) →
      read_values_unwrap g l = (.ok (l.map fun p => right_value p.2), g) := by
  intro l
  induction l with
  | nil => intro _; rfl
  | cons p rest ih =>
      intro h
      obtain ⟨k, pv⟩ := p
      obtain ⟨v, hv⟩ := h ⟨k, pv⟩ (by simp)
      simp only at hv
      subst hv
      simp only [read_values_unwrap, read_expression_value]
      rw [ih (fun q hq => h q (by simp [hq]))]
      simp only [andThen, right_value, List.map]

theorem get_member_offset_inj (fields : StructFields) :
    ∀ n1 n2 k, get_member_offset fields n1 = some k →
      get_member_offset fields n2 = some k → n1 = n2 := by
  induction fields with
  | nil => intro n1 n2 k h1 _; simp [get_member_offset] at h1
  | cons p rest ih =>
      obtain ⟨fname, ty⟩ := p
      intro n1 n2 k h1 h2
      simp only [get_member_offset] at h1 h2
      cases he1 : fname == n1
      · rw [he1] at h1
        rw [if_neg (by decide)] at h1
        cases he2 : fname == n2
        · rw [he2] at h2
          rw [if_neg (by decide)] at h2
          obtain ⟨a, ha, hka⟩ := Option.map_eq_some'.mp h1
          obtain ⟨b, hb, hkb⟩ := Option.map_eq_some'.mp h2
          have hab : a = b := by omega
          exact ih n1 n2 a ha (hab ▸ hb)
        · rw [he2] at h2
          rw [if_pos (by decide)] at h2
          have hk0 := Option.some.inj h2
          obtain ⟨a, _, hk⟩ := Option.map_eq_some'.mp h1
          exfalso
          omega
      · rw [he1] at h1
        rw [if_pos (by decide)] at h1
        cases he2 : fname == n2
        · rw [he2] at h2
          rw [if_neg (by decide)] at h2
          have hk0 := Option.some.inj h1
          obtain ⟨a, _, hk⟩ := Option.map_eq_some'.mp h2
          exfalso
          omega
        · have g1 : fname = n1 := by simpa using he1
          have g2 : fname = n2 := by simpa using he2
          rw [← g1, ← g2]

theorem insert_by_offset_eq (p : Nat × ExpressionValue)
    (l : List (Nat × ExpressionValue)) :
    insert_by_offset p l = List.orderedInsert (fun a b => a.1 ≤ b.1) p l := by
  induction l with
  | nil => rfl
  | cons q rest ih => simp only [insert_by_offset, List.orderedInsert, ih]

theorem sort_by_offset_eq (l : List (Nat × ExpressionValue)) :
    sort_by_offset l = List.insertionSort (fun a b => a.1 ≤ b.1) l := by
  induction l with
  | nil => rfl
  | cons p rest ih =>
      simp only [sort_by_offset, List.insertionSort, ih, insert_by_offset_eq]

theorem sort_by_offset_perm (l : List (Nat × ExpressionValue)) :
    (sort_by_offset l).Perm l := by
  rw [sort_by_offset_eq]
  exact List.perm_insertionSort _ l

theorem sort_by_offset_sorted (l : List (Nat × ExpressionValue)) :
    (sort_by_offset l).Sorted (fun a b => a.1 ≤ b.1) := by
  rw [sort_by_offset_eq]
  haveI : IsTotal (Nat × ExpressionValue) (fun a b => a.1 ≤ b.1) :=
    ⟨fun a b => Nat.le_total a.1 b.1⟩
  haveI : IsTrans (Nat × ExpressionValue) (fun a b => a.1 ≤ b.1) :=
    ⟨fun a b c h1 h2 => Nat.le_trans h1 h2⟩
  exact List.sorted_insertionSort _ l

theorem sorted_lt_of_nodup {l : List (Nat × ExpressionValue)}
    (hs : l.Sorted (fun a b => a.1 ≤ b.1))
    (hn : (l.map Prod.fst).Nodup) :
    l.Sorted (fun a b => a.1 < b.1) := by
  rw [List.Nodup, List.pairwise_map] at hn
  have hs' : l.Pairwise (fun a b => a.1 ≤ b.1) := hs
  exact (hs'.and hn).imp (fun h => Nat.lt_of_le_of_ne h.1 h.2)

theorem sort_eq_of_perm_nodup {l1 l2 : List (Nat × ExpressionValue)}
    (hp : l1.Perm l2) (hn : (l1.map Prod.fst).Nodup) :
    sort_by_offset l1 = sort_by_offset l2 := by
  haveI : IsAntisymm (Nat × ExpressionValue) (fun a b => a.1 < b.1) :=
    ⟨fun a b h1 h2 => absurd h1 (Nat.lt_asymm h2)⟩
  have hperm12 : (sort_by_offset l1).Perm (sort_by_offset l2) :=
    (sort_by_offset_perm l1).trans (hp.trans (sort_by_offset_perm l2).symm)
  have hn2 : (l2.map Prod.fst).Nodup := ((hp.map Prod.fst).nodup_iff).mp hn
  have hns1 : ((sort_by_offset l1).map Prod.fst).Nodup :=
    (((sort_by_offset_perm l1).map Prod.fst).nodup_iff).mpr hn
  have hns2 : ((sort_by_offset l2).map Prod.fst).Nodup :=
    (((sort_by_offset_perm l2).map Prod.fst).nodup_iff).mpr hn2
  exact List.eq_of_perm_of_sorted hperm12
    (sorted_lt_of_nodup (sort_by_offset_sorted l1) hns1)
    (sorted_lt_of_nodup (sort_by_offset_sorted l2) hns2)

theorem init_pairs_keys_nodup (fields : StructFields)
    (vs : List (String × Expr))
    (hn : ∀ p ∈ vs, (get_member_offset fields p.1).isSome = true)
    (hnd : (vs.map Prod.fst).Nodup) :
    ((init_pairs fields vs).map Prod.fst).Nodup := by
  have hnd' : vs.Pairwise (fun p q => p.1 ≠ q.1) := by
    rw [List.Nodup, List.pairwise_map] at hnd
    exact hnd
  simp only [init_pairs, List.map_map]
  rw [List.Nodup, List.pairwise_map]
  refine List.Pairwise.imp_of_mem ?_ hnd'
  intro p q hp hq hne
  obtain ⟨kp, hkp⟩ := Option.isSome_iff_exists.mp (hn p hp)
  obtain ⟨kq, hkq⟩ := Option.isSome_iff_exists.mp (hn q hq)
  simp only [Function.comp, hkp, hkq, Option.getD_some]
  intro heq
  exact hne (get_member_offset_inj fields p.1 q.1 kp hkp (by rw [hkq, heq]))

/-- C7: record initializer lowering is permutation-invariant — for two
orderings of the same (field name, constant literal) pairs with distinct
field names that all resolve in the record type, both lower (with enough
fuel) to the SAME constant named-record aggregate, with the generator state
unchanged, because the pairs are sorted by declaration index (generator.rs
line 48) before emission. -/
theorem C7_perm_invariant (f : Nat) (g : GenState) (sname n : String)
    (fields : StructFields) (vs1 vs2 : List (String × Expr))
    (hty : get_generic_type g (.typeIdentifier sname) = .ok (.struct n))
    (hf : get_struct_fields g n = some fields)
    (hlen : fields.length = vs1.length)
    (hperm : vs1.Perm vs2)
    (hconst : ∀ p ∈ vs1, is_const_lit p.2 = true)
    (hnames : ∀ p ∈ vs1, (get_member_offset fields p.1).isSome = true)
    (hnodup : (vs1.map Prod.fst).Nodup)
    (hfuel : vs1.length < f) :
    ∃ vals,
      build_structure_initializer (f + 1) g sname vs1 =
        (.ok (.right (.structConst (.struct n) vals)), g) ∧
      build_structure_initializer (f + 1) g sname vs2 =
        (.ok (.right (.structConst (.struct n) vals)), g) := by
  have hconst2 : ∀ p ∈ vs2, is_const_lit p.2 = true :=
    fun p hp => hconst p (hperm.mem_iff.mpr hp)
  have hnames2 : ∀ p ∈ vs2, (get_member_offset fields p.1).isSome = true :=
    fun p hp => hnames p (hperm.mem_iff.mpr hp)
  have hfuel2 : vs2.length < f := by
    rw [← hperm.length_eq]
    exact hfuel
  have hsv1 := build_struct_init_values_const fields vs1 f g hconst hnames hfuel
  have hsv2 := build_struct_init_values_const fields vs2 f g hconst2 hnames2 hfuel2
  have hpp : (init_pairs fields vs1).Perm (init_pairs fields vs2) :=
    hperm.map _
  have hkeys := init_pairs_keys_nodup fields vs1 hnames hnodup
  have hsorteq : sort_by_offset (init_pairs fields vs1) =
      sort_by_offset (init_pairs fields vs2) :=
    sort_eq_of_perm_nodup hpp hkeys
  have hr1 : ∀ p ∈ sort_by_offset (init_pairs fields vs1),
      ∃ v, p.2 = .right v := by
    intro p hp
    have hp' : p ∈ init_pairs fields vs1 := ((sort_by_offset_perm _).mem_iff).mp hp
    simp only [init_pairs] at hp'
    obtain ⟨q, hq, rfl⟩ := List.mem_map.mp hp'
    exact ⟨const_lit_value q.2, rfl⟩
  have hread1 := read_values_unwrap_rights g _ hr1
  have hne1 : ¬ fields.length ≠ vs1.length := fun hx => hx hlen
  have hne2 : ¬ fields.length ≠ vs2.length :=
    fun hx => hx (hlen.trans hperm.length_eq)
  refine ⟨(sort_by_offset (init_pairs fields vs1)).map (fun p => right_value p.2),
    ?_, ?_⟩
  · simp only [build_structure_initializer, hty, hf]
    rw [if_neg hne1, hsv1]
    simp only [andThen]
    rw [hread1]
  · simp only [build_structure_initializer, hty, hf]
    rw [if_neg hne2, hsv2]
    simp only [andThen]
    rw [← hsorteq]
    rw [hread1]

/-- Witness: C7_perm_invariant on the spec example — struct P with fields
x, y and the two orderings of the initializer pairs x: 1, y: 2. -/
theorem C7_perm_invariant_witness :
    ∃ vals,
      build_structure_initializer 4 struct_state "P"
          [("x", .numberLiteral (.integer 1)),
           ("y", .numberLiteral (.integer 2))] =
        (.ok (.right (.structConst (.struct "P") vals)), struct_state) ∧
      build_structure_initializer 4 struct_state "P"
          [("y", .numberLiteral (.integer 2)),
           ("x", .numberLiteral (.integer 1))] =
        (.ok (.right (.structConst (.struct "P") vals)), struct_state) :=
  C7_perm_invariant 3 struct_state "P" "P"
    [("x", .integer 32 true), ("y", .integer 32 true)]
    [("x", .numberLiteral (.integer 1)), ("y", .numberLiteral (.integer 2))]
    [("y", .numberLiteral (.integer 2)), ("x", .numberLiteral (.integer 1))]
    rfl rfl rfl
    (List.Perm.swap (("y", Expr.numberLiteral (.integer 2)) : String × Expr)
      (("x", Expr.numberLiteral (.integer 1)) : String × Expr) [])
    (by decide) (by decide) (by decide) (by decide)

end LlvmRs
